import Mathlib

/-!
Shallow embedding of the OSI semantic-model validator
(`validation/validate.py`) and proofs about its four validation passes.

Python values are modelled by the inductive type `Val` (None, bool, int,
str, list, dict with string keys).  Python code that can raise an
exception is modelled in the `Except PyErr` monad: `AttributeError`
(calling `.get` on a non-dict) and `TypeError` (iterating a non-iterable,
hashing an unhashable value) are the two exceptions the validator can
actually raise.  The external collaborators (the jsonschema checker and
the sqlglot parser) are abstracted as function parameters, as the spec
treats them as external services.
-/

/-- Python exceptions the validator can raise. -/
inductive PyErr where
  | attributeError
  | typeError
deriving DecidableEq, Repr

/-- A Python/YAML value: None, bool, int, str, list, or dict (string keys,
first binding wins on lookup, as dict construction keeps keys unique). -/
inductive Val where
  | vnull
  | vbool (b : Bool)
  | vint (n : Int)
  | vstr (s : String)
  | vlist (xs : List Val)
  | vdict (m : List (String × Val))

mutual

def Val.decEq : (a b : Val) → Decidable (a = b)
  | .vnull, .vnull => isTrue rfl
  | .vbool a, .vbool b =>
    match inferInstanceAs (Decidable (a = b)) with
    | isTrue h => isTrue (by rw [h])
    | isFalse h => isFalse (by intro hh; cases hh; exact h rfl)
  | .vint a, .vint b =>
    match inferInstanceAs (Decidable (a = b)) with
    | isTrue h => isTrue (by rw [h])
    | isFalse h => isFalse (by intro hh; cases hh; exact h rfl)
  | .vstr a, .vstr b =>
    match inferInstanceAs (Decidable (a = b)) with
    | isTrue h => isTrue (by rw [h])
    | isFalse h => isFalse (by intro hh; cases hh; exact h rfl)
  | .vlist xs, .vlist ys =>
    match Val.decEqList xs ys with
    | isTrue h => isTrue (by rw [h])
    | isFalse h => isFalse (by intro hh; cases hh; exact h rfl)
  | .vdict xs, .vdict ys =>
    match Val.decEqDict xs ys with
    | isTrue h => isTrue (by rw [h])
    | isFalse h => isFalse (by intro hh; cases hh; exact h rfl)
  | .vnull, .vbool _ | .vnull, .vint _ | .vnull, .vstr _ | .vnull, .vlist _ | .vnull, .vdict _
  | .vbool _, .vnull | .vbool _, .vint _ | .vbool _, .vstr _ | .vbool _, .vlist _ | .vbool _, .vdict _
  | .vint _, .vnull | .vint _, .vbool _ | .vint _, .vstr _ | .vint _, .vlist _ | .vint _, .vdict _
  | .vstr _, .vnull | .vstr _, .vbool _ | .vstr _, .vint _ | .vstr _, .vlist _ | .vstr _, .vdict _
  | .vlist _, .vnull | .vlist _, .vbool _ | .vlist _, .vint _ | .vlist _, .vstr _ | .vlist _, .vdict _
  | .vdict _, .vnull | .vdict _, .vbool _ | .vdict _, .vint _ | .vdict _, .vstr _ | .vdict _, .vlist _ =>
    isFalse (by intro hh; cases hh)

def Val.decEqList : (xs ys : List Val) → Decidable (xs = ys)
  | [], [] => isTrue rfl
  | [], _ :: _ => isFalse (by intro hh; cases hh)
  | _ :: _, [] => isFalse (by intro hh; cases hh)
  | x :: xs, y :: ys =>
    match Val.decEq x y, Val.decEqList xs ys with
    | isTrue h1, isTrue h2 => isTrue (by rw [h1, h2])
    | isFalse h1, _ => isFalse (by intro hh; cases hh; exact h1 rfl)
    | _, isFalse h2 => isFalse (by intro hh; cases hh; exact h2 rfl)

def Val.decEqDict : (xs ys : List (String × Val)) → Decidable (xs = ys)
  | [], [] => isTrue rfl
  | [], _ :: _ => isFalse (by intro hh; cases hh)
  | _ :: _, [] => isFalse (by intro hh; cases hh)
  | (k, v) :: xs, (k2, v2) :: ys =>
    match inferInstanceAs (Decidable (k = k2)), Val.decEq v v2, Val.decEqDict xs ys with
    | isTrue h0, isTrue h1, isTrue h2 => isTrue (by rw [h0, h1, h2])
    | isFalse h0, _, _ => isFalse (by intro hh; cases hh; exact h0 rfl)
    | _, isFalse h1, _ => isFalse (by intro hh; cases hh; exact h1 rfl)
    | _, _, isFalse h2 => isFalse (by intro hh; cases hh; exact h2 rfl)

end

instance : DecidableEq Val := Val.decEq

/-- Python truthiness (`if v:`). -/
def isTruthy : Val → Bool
  | .vnull => false
  | .vbool b => b
  | .vint n => n != 0
  | .vstr s => !s.isEmpty
  | .vlist xs => !xs.isEmpty
  | .vdict m => !m.isEmpty

/-- Python hashability: lists and dicts are unhashable, scalars are hashable. -/
def pyHashable : Val → Bool
  | .vlist _ => false
  | .vdict _ => false
  | _ => true

mutual

/-- Python `repr(v)` (string escaping inside reprs is not modelled; the
documents the validator handles only format scalar names). -/
def pyRepr : Val → String
  | .vnull => "None"
  | .vbool true => "True"
  | .vbool false => "False"
  | .vint n => toString n
  | .vstr s => "'" ++ s ++ "'"
  | .vlist xs => "[" ++ pyReprList xs ++ "]"
  | .vdict m => "\x7b" ++ pyReprDict m ++ "\x7d"

/-- Comma-separated reprs of a Python list's elements. -/
def pyReprList : List Val → String
  | [] => ""
  | [x] => pyRepr x
  | x :: y :: rest => pyRepr x ++ ", " ++ pyReprList (y :: rest)

/-- Comma-separated `'key': repr` pairs of a Python dict. -/
def pyReprDict : List (String × Val) → String
  | [] => ""
  | [(k, v)] => "'" ++ k ++ "': " ++ pyRepr v
  | (k, v) :: p :: rest => "'" ++ k ++ "': " ++ pyRepr v ++ ", " ++ pyReprDict (p :: rest)

end

/-- Python `str(v)` as used by f-string interpolation. -/
def pyStr : Val → String
  | .vstr s => s
  | v => pyRepr v

/-- Python `d.get(k)` — `AttributeError` when `d` is not a dict, `None`
when the key is absent. -/
def pyGet (v : Val) (k : String) : Except PyErr Val :=
  match v with
  | .vdict m => .ok ((m.lookup k).getD .vnull)
  | _ => .error .attributeError

/-- Python `d.get(k, default)`. -/
def pyGetD (v : Val) (k : String) (d : Val) : Except PyErr Val :=
  match v with
  | .vdict m => .ok ((m.lookup k).getD d)
  | _ => .error .attributeError

/-- Python `for x in v`: lists yield elements, strings yield one-character
strings, dicts yield their keys; other values raise `TypeError`. -/
def pyIter : Val → Except PyErr (List Val)
  | .vlist xs => .ok xs
  | .vstr s => .ok (s.data.map (fun c => .vstr (String.mk [c])))
  | .vdict m => .ok (m.map (fun p => .vstr p.1))
  | _ => .error .typeError

/-- `DIALECT_MAP` from validate.py: OSI dialect → sqlglot dialect
(`none` is Python `None`, the sqlglot default grammar). -/
def DIALECT_MAP : List (String × Option String) :=
  [("ANSI_SQL", none),
   ("SNOWFLAKE", some "snowflake"),
   ("DATABRICKS", some "databricks"),
   ("MDX", none),
   ("TABLEAU", none)]

/-- `SKIP_SQL_VALIDATION` from validate.py: dialects sqlglot cannot parse. -/
def SKIP_SQL_VALIDATION : List String := ["MDX", "TABLEAU"]

/-- Python `v in s` for a set `s` of strings: equality against each member;
`TypeError` when `v` is unhashable. -/
def strSetMem (v : Val) (s : List String) : Except PyErr Bool :=
  if pyHashable v then .ok (s.any (fun x => decide (v = .vstr x))) else .error .typeError

/-- `DIALECT_MAP.get(dialect)` on a hashable key (total helper). -/
def dialectLookup (v : Val) : Option String :=
  match v with
  | .vstr s => (DIALECT_MAP.lookup s).join
  | _ => none

/-- Python `DIALECT_MAP.get(dialect)`: `None` for a missing key,
`TypeError` for an unhashable key. -/
def dialectMapGet (v : Val) : Except PyErr (Option String) :=
  if pyHashable v then .ok (dialectLookup v) else .error .typeError

/-- The external jsonschema checker, abstracted: yields (absolute_path,
message) pairs for a document. -/
structure SchemaEnv where
  iter_errors : Val → List (List Val × String)

/-- `validate_schema` from validate.py: formats each jsonschema error as
`[Schema] path: message`, with `(root)` for an empty path. -/
def validate_schema (senv : SchemaEnv) (data : Val) : List String :=
  (senv.iter_errors data).map (fun er =>
    let path := if er.1.isEmpty then "(root)"
      else String.intercalate " -> " (er.1.map pyStr)
    "[Schema] " ++ path ++ ": " ++ er.2)

/-- `find_duplicates` from validate.py, generalised over the running
`seen` set: scans the list once; an item already in `seen` is appended to
the duplicates, and every item is added to `seen`.  Python's set raises
`TypeError` on an unhashable item. -/
def find_duplicates_aux (seen : List Val) : List Val → Except PyErr (List Val)
  | [] => .ok []
  | x :: xs =>
    if pyHashable x then
      match find_duplicates_aux (x :: seen) xs with
      | .error e => .error e
      | .ok rest => if x ∈ seen then .ok (x :: rest) else .ok rest
    else .error .typeError

/-- `find_duplicates` from validate.py. -/
def find_duplicates (items : List Val) : Except PyErr (List Val) :=
  find_duplicates_aux [] items

/-- The list comprehension `[d.get("name") for d in entries if d.get("name")]`
used by `validate_unique_names` for each scope. -/
def getTruthyNames : List Val → Except PyErr (List Val)
  | [] => .ok []
  | d :: rest =>
    match pyGet d "name" with
    | .error e => .error e
    | .ok n =>
      match getTruthyNames rest with
      | .error e => .error e
      | .ok ns => if isTruthy n then .ok (n :: ns) else .ok ns

/-- One duplicate-name scope of `validate_unique_names`: filter truthy
names out of `entries`, run `find_duplicates`, format each duplicate. -/
def uniqScope (entries : List Val) (fmt : Val → String) : Except PyErr (List String) :=
  match getTruthyNames entries with
  | .error e => .error e
  | .ok names =>
    match find_duplicates names with
    | .error e => .error e
    | .ok dups => .ok (dups.map fmt)

/-- The inner `for dataset in model.get("datasets", [])` loop of
`validate_unique_names`, checking field-name uniqueness per dataset. -/
def uniqFields : List Val → Except PyErr (List String)
  | [] => .ok []
  | dset :: rest =>
    match pyGetD dset "name" (.vstr "<unnamed>") with
    | .error e => .error e
    | .ok dnameV =>
      match pyGetD dset "fields" (.vlist []) with
      | .error e => .error e
      | .ok fieldsV =>
        match pyIter fieldsV with
        | .error e => .error e
        | .ok fields =>
          match uniqScope fields (fun dup =>
              "[Unique] Duplicate field name '" ++ pyStr dup ++ "' in dataset '"
                ++ pyStr dnameV ++ "'") with
          | .error e => .error e
          | .ok errs =>
            match uniqFields rest with
            | .error e => .error e
            | .ok more => .ok (errs ++ more)

/-- The body of `validate_unique_names` for one model: dataset names,
then per-dataset field names, then metric names, then relationship names. -/
def uniqModel (model : Val) : Except PyErr (List String) :=
  match pyGetD model "name" (.vstr "<unnamed>") with
  | .error e => .error e
  | .ok mnameV =>
    match pyGetD model "datasets" (.vlist []) with
    | .error e => .error e
    | .ok datasetsV =>
      match pyIter datasetsV with
      | .error e => .error e
      | .ok datasets =>
        match uniqScope datasets (fun dup =>
            "[Unique] Duplicate dataset name '" ++ pyStr dup ++ "' in model '"
              ++ pyStr mnameV ++ "'") with
        | .error e => .error e
        | .ok e1 =>
          match pyGetD model "datasets" (.vlist []) with
          | .error e => .error e
          | .ok datasetsV2 =>
            match pyIter datasetsV2 with
            | .error e => .error e
            | .ok datasets2 =>
              match uniqFields datasets2 with
              | .error e => .error e
              | .ok e2 =>
                match pyGetD model "metrics" (.vlist []) with
                | .error e => .error e
                | .ok metricsV =>
                  match pyIter metricsV with
                  | .error e => .error e
                  | .ok metrics =>
                    match uniqScope metrics (fun dup =>
                        "[Unique] Duplicate metric name '" ++ pyStr dup ++ "' in model '"
                          ++ pyStr mnameV ++ "'") with
                    | .error e => .error e
                    | .ok e3 =>
                      match pyGetD model "relationships" (.vlist []) with
                      | .error e => .error e
                      | .ok relsV =>
                        match pyIter relsV with
                        | .error e => .error e
                        | .ok rels =>
                          match uniqScope rels (fun dup =>
                              "[Unique] Duplicate relationship name '" ++ pyStr dup
                                ++ "' in model '" ++ pyStr mnameV ++ "'") with
                          | .error e => .error e
                          | .ok e4 => .ok (e1 ++ e2 ++ e3 ++ e4)

/-- The `for model in data.get("semantic_model", [])` loop of
`validate_unique_names`. -/
def uniqModels : List Val → Except PyErr (List String)
  | [] => .ok []
  | model :: rest =>
    match uniqModel model with
    | .error e => .error e
    | .ok errs =>
      match uniqModels rest with
      | .error e => .error e
      | .ok more => .ok (errs ++ more)

/-- `validate_unique_names` from validate.py. -/
def validate_unique_names (data : Val) : Except PyErr (List String) :=
  match pyGetD data "semantic_model" (.vlist []) with
  | .error e => .error e
  | .ok smV =>
    match pyIter smV with
    | .error e => .error e
    | .ok models => uniqModels models

/-- The set comprehension
`{d.get("name") for d in model.get("datasets", []) if d.get("name")}` of
`validate_references` (kept as a list; only membership is used, and adding
an unhashable name to a Python set raises `TypeError`). -/
def buildNameSet : List Val → Except PyErr (List Val)
  | [] => .ok []
  | d :: rest =>
    match pyGet d "name" with
    | .error e => .error e
    | .ok n =>
      if isTruthy n then
        if pyHashable n then
          match buildNameSet rest with
          | .error e => .error e
          | .ok s => .ok (n :: s)
        else .error .typeError
      else buildNameSet rest

/-- The diagnostic `validate_references` emits for an unresolved endpoint. -/
def refMsg (relNameV ds : Val) : String :=
  "[Reference] Relationship '" ++ pyStr relNameV ++ "' references unknown dataset '"
    ++ pyStr ds ++ "'"

/-- Python `v in s` for the dataset-name set: `TypeError` on an unhashable
value (only reached when `v` is truthy, by short-circuiting). -/
def valSetMem (v : Val) (s : List Val) : Except PyErr Bool :=
  if pyHashable v then .ok (decide (v ∈ s)) else .error .typeError

/-- The `if from_ds and from_ds not in dataset_names` check of
`validate_references`, for one endpoint: zero or one diagnostic. -/
def refEndpoint (relNameV endp : Val) (dnames : List Val) : Except PyErr (List String) :=
  if isTruthy endp then
    match valSetMem endp dnames with
    | .error e => .error e
    | .ok inSet => .ok (if inSet then [] else [refMsg relNameV endp])
  else .ok []

/-- The `for rel in model.get("relationships", [])` loop of
`validate_references`. -/
def refRels (dnames : List Val) : List Val → Except PyErr (List String)
  | [] => .ok []
  | rel :: rest =>
    match pyGetD rel "name" (.vstr "<unnamed>") with
    | .error e => .error e
    | .ok relNameV =>
      match pyGet rel "from" with
      | .error e => .error e
      | .ok fromDs =>
        match pyGet rel "to" with
        | .error e => .error e
        | .ok toDs =>
          match refEndpoint relNameV fromDs dnames with
          | .error e => .error e
          | .ok e1 =>
            match refEndpoint relNameV toDs dnames with
            | .error e => .error e
            | .ok e2 =>
              match refRels dnames rest with
              | .error e => .error e
              | .ok more => .ok (e1 ++ e2 ++ more)

/-- The body of `validate_references` for one model. -/
def refModel (model : Val) : Except PyErr (List String) :=
  match pyGetD model "name" (.vstr "<unnamed>") with
  | .error e => .error e
  | .ok _ =>
    match pyGetD model "datasets" (.vlist []) with
    | .error e => .error e
    | .ok datasetsV =>
      match pyIter datasetsV with
      | .error e => .error e
      | .ok datasets =>
        match buildNameSet datasets with
        | .error e => .error e
        | .ok dnames =>
          match pyGetD model "relationships" (.vlist []) with
          | .error e => .error e
          | .ok relsV =>
            match pyIter relsV with
            | .error e => .error e
            | .ok rels => refRels dnames rels

/-- The `for model in data.get("semantic_model", [])` loop of
`validate_references`. -/
def refModels : List Val → Except PyErr (List String)
  | [] => .ok []
  | model :: rest =>
    match refModel model with
    | .error e => .error e
    | .ok errs =>
      match refModels rest with
      | .error e => .error e
      | .ok more => .ok (errs ++ more)

/-- `validate_references` from validate.py. -/
def validate_references (data : Val) : Except PyErr (List String) :=
  match pyGetD data "semantic_model" (.vlist []) with
  | .error e => .error e
  | .ok smV =>
    match pyIter smV with
    | .error e => .error e
    | .ok models => refModels models

/-- The external sqlglot parser, abstracted: `available` is the
import-time `SQLGLOT_AVAILABLE` flag; `parse` models
`sqlglot.parse_one(text, dialect=d)`, returning the `ParseError` message
on failure. -/
structure SqlEnv where
  available : Bool
  parse : Val → Option String → Except String Unit

/-- The characters before the first newline. -/
def firstLineChars : List Char → List Char
  | [] => []
  | c :: rest => if c = '\n' then [] else c :: firstLineChars rest

/-- `str(e).split(chr(10))[0]`: the first line of an error message (the
whole message when it has no newline). -/
def firstLine (s : String) : String := ⟨firstLineChars s.data⟩

/-- `validate_sql_expression` from validate.py: skip when sqlglot is
unavailable or the dialect is in `SKIP_SQL_VALIDATION`; otherwise try the
raw text, then the `SELECT `-prefixed text, and report the first line of
the second failure. -/
def validate_sql_expression (env : SqlEnv) (expr dialect : Val) (context : String) :
    Except PyErr (Option String) :=
  if !env.available then .ok none
  else
    match strSetMem dialect SKIP_SQL_VALIDATION with
    | .error e => .error e
    | .ok skip =>
      if skip then .ok none
      else
        match dialectMapGet dialect with
        | .error e => .error e
        | .ok sqlglotDialect =>
          match env.parse expr sqlglotDialect with
          | .ok _ => .ok none
          | .error _ =>
            match env.parse (.vstr ("SELECT " ++ pyStr expr)) sqlglotDialect with
            | .ok _ => .ok none
            | .error e2 => .ok (some ("[SQL] " ++ context ++ ": " ++ firstLine e2))

/-- The `for dialect_expr in expression.get("dialects", [])` loop shared by
the field and metric branches of `validate_sql`; `ctxPre` is the part of
the context string before ` ({dialect})`. -/
def sqlEntries (env : SqlEnv) (ctxPre : String) : List Val → Except PyErr (List String)
  | [] => .ok []
  | de :: rest =>
    match pyGetD de "dialect" (.vstr "ANSI_SQL") with
    | .error e => .error e
    | .ok dialect =>
      match pyGetD de "expression" (.vstr "") with
      | .error e => .error e
      | .ok expr =>
        match (if isTruthy expr then
            validate_sql_expression env expr dialect
              (ctxPre ++ " (" ++ pyStr dialect ++ ")")
          else .ok none) with
        | .error e => .error e
        | .ok res =>
          match sqlEntries env ctxPre rest with
          | .error e => .error e
          | .ok more => .ok (res.toList ++ more)

/-- The `for field in dataset.get("fields", [])` loop of `validate_sql`. -/
def sqlFields (env : SqlEnv) (dname : String) : List Val → Except PyErr (List String)
  | [] => .ok []
  | f :: rest =>
    match pyGetD f "name" (.vstr "<unnamed>") with
    | .error e => .error e
    | .ok fnameV =>
      match pyGetD f "expression" (.vdict []) with
      | .error e => .error e
      | .ok exprV =>
        match pyGetD exprV "dialects" (.vlist []) with
        | .error e => .error e
        | .ok dialectsV =>
          match pyIter dialectsV with
          | .error e => .error e
          | .ok des =>
            match sqlEntries env ("Field '" ++ dname ++ "." ++ pyStr fnameV ++ "'") des with
            | .error e => .error e
            | .ok errs =>
              match sqlFields env dname rest with
              | .error e => .error e
              | .ok more => .ok (errs ++ more)

/-- The `for dataset in model.get("datasets", [])` loop of `validate_sql`. -/
def sqlDatasets (env : SqlEnv) : List Val → Except PyErr (List String)
  | [] => .ok []
  | dset :: rest =>
    match pyGetD dset "name" (.vstr "<unnamed>") with
    | .error e => .error e
    | .ok dnameV =>
      match pyGetD dset "fields" (.vlist []) with
      | .error e => .error e
      | .ok fieldsV =>
        match pyIter fieldsV with
        | .error e => .error e
        | .ok fields =>
          match sqlFields env (pyStr dnameV) fields with
          | .error e => .error e
          | .ok errs =>
            match sqlDatasets env rest with
            | .error e => .error e
            | .ok more => .ok (errs ++ more)

/-- The `for metric in model.get("metrics", [])` loop of `validate_sql`. -/
def sqlMetrics (env : SqlEnv) : List Val → Except PyErr (List String)
  | [] => .ok []
  | metric :: rest =>
    match pyGetD metric "name" (.vstr "<unnamed>") with
    | .error e => .error e
    | .ok mnameV =>
      match pyGetD metric "expression" (.vdict []) with
      | .error e => .error e
      | .ok exprV =>
        match pyGetD exprV "dialects" (.vlist []) with
        | .error e => .error e
        | .ok dialectsV =>
          match pyIter dialectsV with
          | .error e => .error e
          | .ok des =>
            match sqlEntries env ("Metric '" ++ pyStr mnameV ++ "'") des with
            | .error e => .error e
            | .ok errs =>
              match sqlMetrics env rest with
              | .error e => .error e
              | .ok more => .ok (errs ++ more)

/-- The body of `validate_sql` for one model (`model_name` is computed but
unused by the source, so only its `AttributeError` effect is kept). -/
def sqlModel (env : SqlEnv) (model : Val) : Except PyErr (List String) :=
  match pyGetD model "name" (.vstr "<unnamed>") with
  | .error e => .error e
  | .ok _ =>
    match pyGetD model "datasets" (.vlist []) with
    | .error e => .error e
    | .ok datasetsV =>
      match pyIter datasetsV with
      | .error e => .error e
      | .ok datasets =>
        match sqlDatasets env datasets with
        | .error e => .error e
        | .ok e1 =>
          match pyGetD model "metrics" (.vlist []) with
          | .error e => .error e
          | .ok metricsV =>
            match pyIter metricsV with
            | .error e => .error e
            | .ok metrics =>
              match sqlMetrics env metrics with
              | .error e => .error e
              | .ok e2 => .ok (e1 ++ e2)

/-- The `for model in data.get("semantic_model", [])` loop of `validate_sql`. -/
def sqlModels (env : SqlEnv) : List Val → Except PyErr (List String)
  | [] => .ok []
  | model :: rest =>
    match sqlModel env model with
    | .error e => .error e
    | .ok errs =>
      match sqlModels env rest with
      | .error e => .error e
      | .ok more => .ok (errs ++ more)

/-- The warning `validate_sql` returns when sqlglot is not installed. -/
def sqlglotWarning : String :=
  "[SQL] Warning: sqlglot not installed, skipping SQL validation. Install with: pip install sqlglot"

/-- `validate_sql` from validate.py. -/
def validate_sql (env : SqlEnv) (data : Val) : Except PyErr (List String) :=
  if !env.available then .ok [sqlglotWarning]
  else
    match pyGetD data "semantic_model" (.vlist []) with
    | .error e => .error e
    | .ok smV =>
      match pyIter smV with
      | .error e => .error e
      | .ok models => sqlModels env models

/-- Python `"Warning:" in e` as used by `main` to separate warnings. -/
def isWarning (e : String) : Bool := decide ("Warning:".data <:+: e.data)

/-- The `errors.extend(...)` pipeline of `main`: schema, uniqueness,
references, SQL, in that order (the schema pass is total; a Python
exception in a later pass aborts the whole run). -/
def runValidations (senv : SchemaEnv) (env : SqlEnv) (data : Val) :
    Except PyErr (List String) :=
  match validate_unique_names data with
  | .error e => .error e
  | .ok e2 =>
    match validate_references data with
    | .error e => .error e
    | .ok e3 =>
      match validate_sql env data with
      | .error e => .error e
      | .ok e4 => .ok (validate_schema senv data ++ e2 ++ e3 ++ e4)

/-- The reporting tail of `main`: returns the printed stdout lines and the
exit code.  `print(f"\nValidation FAILED with {n} error(s):\n")` is three
lines (empty, header, empty). -/
def report (errors : List String) (fileName : String) : List String × Nat :=
  if errors.isEmpty then (["Validation PASSED: " ++ fileName], 0)
  else
    let warnings := errors.filter (fun e => isWarning e)
    let actual_errors := errors.filter (fun e => !isWarning e)
    let wlines := warnings.map (fun w => "  " ++ w)
    if actual_errors.isEmpty then
      (wlines ++ ["Validation PASSED: " ++ fileName], 0)
    else
      (wlines
        ++ ["", "Validation FAILED with " ++ toString actual_errors.length ++ " error(s):", ""]
        ++ actual_errors.map (fun e => "  " ++ e), 1)

/-- `main`'s behaviour after loading succeeds: run the four passes, then
report (a Python exception is propagated). -/
def runMain (senv : SchemaEnv) (env : SqlEnv) (data : Val) (fileName : String) :
    Except PyErr (List String × Nat) :=
  match runValidations senv env data with
  | .error e => .error e
  | .ok errors => .ok (report errors fileName)

/-- A dataset/metric/relationship entry carrying only a `name` key. -/
def mkNameDict (n : Val) : Val := .vdict [("name", n)]

/-- A document with one model whose datasets carry the given name values. -/
def mkDatasetsDoc (mname : String) (ns : List Val) : Val :=
  .vdict [("semantic_model", .vlist [
    .vdict [("name", .vstr mname), ("datasets", .vlist (ns.map mkNameDict))]])]

/-- A dict key is either absent or its value satisfies `p`. -/
def keyWF (m : List (String × Val)) (k : String) (p : Val → Bool) : Bool :=
  match m.lookup k with
  | some v => p v
  | none => true

/-- The value is a list all of whose elements satisfy `p`. -/
def isListAll (p : Val → Bool) : Val → Bool
  | .vlist xs => xs.all p
  | _ => false

/-- A dict whose `name`, when present, is hashable. -/
def dictHashName : Val → Bool
  | .vdict m => keyWF m "name" pyHashable
  | _ => false

/-- A well-shaped dialect entry: a dict whose `dialect` is hashable. -/
def wfDialectEntry : Val → Bool
  | .vdict m => keyWF m "dialect" pyHashable
  | _ => false

/-- A well-shaped expression value: a dict whose `dialects` is a list of
well-shaped dialect entries. -/
def wfExpression : Val → Bool
  | .vdict m => keyWF m "dialects" (isListAll wfDialectEntry)
  | _ => false

/-- A well-shaped field or metric: a dict with hashable `name` and
well-shaped `expression`. -/
def wfExprOwner : Val → Bool
  | .vdict m => keyWF m "name" pyHashable && keyWF m "expression" wfExpression
  | _ => false

/-- A well-shaped dataset: a dict with hashable `name` and a `fields`
list of well-shaped fields. -/
def wfDataset : Val → Bool
  | .vdict m => keyWF m "name" pyHashable && keyWF m "fields" (isListAll wfExprOwner)
  | _ => false

/-- A well-shaped relationship: a dict with hashable `name`, `from`, `to`. -/
def wfRelationship : Val → Bool
  | .vdict m => keyWF m "name" pyHashable && keyWF m "from" pyHashable
      && keyWF m "to" pyHashable
  | _ => false

/-- A well-shaped model: a dict whose `datasets`, `metrics` and
`relationships`, when present, are lists of well-shaped entries. -/
def wfModel : Val → Bool
  | .vdict m => keyWF m "datasets" (isListAll wfDataset)
      && keyWF m "metrics" (isListAll wfExprOwner)
      && keyWF m "relationships" (isListAll wfRelationship)
  | _ => false

/-- A well-shaped document: a dict whose `semantic_model`, when present,
is a list of well-shaped models.  Keys may be missing at every level. -/
def wfDoc : Val → Bool
  | .vdict m => keyWF m "semantic_model" (isListAll wfModel)
  | _ => false

/-- A diagnostic of the full documented shape `[Kind] context: message`. -/
def ctxDiag (kind s : String) : Prop :=
  ∃ c m, s = "[" ++ kind ++ "] " ++ c ++ ": " ++ m

/-- A diagnostic that begins with the kind tag `[Kind] `. -/
def taggedDiag (kind s : String) : Prop := ("[" ++ kind ++ "] ").data <+: s.data

/-- The spec's claimed diagnostic format, over the four kinds. -/
def diagFormat (s : String) : Prop :=
  ∃ k, k ∈ ["Schema", "Unique", "Reference", "SQL"] ∧ ctxDiag k s

theorem find_duplicates_aux_count (a : Val) :
    ∀ (l seen d : List Val), find_duplicates_aux seen l = .ok d →
      d.count a = if a ∈ seen then l.count a else l.count a - 1
  | [], seen, d, h => by
    simp only [find_duplicates_aux] at h
    cases h
    simp
  | x :: xs, seen, d, h => by
    simp only [find_duplicates_aux] at h
    by_cases hx : pyHashable x = true
    · rw [if_pos hx] at h
      cases hr : find_duplicates_aux (x :: seen) xs with
      | error e => rw [hr] at h; exact absurd h (by simp)
      | ok rest =>
        simp only [hr] at h
        have ih := find_duplicates_aux_count a xs (x :: seen) rest hr
        by_cases hxs : x ∈ seen
        · rw [if_pos hxs] at h
          cases h
          by_cases has : a ∈ seen
          · have : a ∈ x :: seen := List.mem_cons_of_mem _ has
            rw [if_pos this] at ih
            rw [if_pos has]
            simp [List.count_cons, ih]
          · have hxa : x ≠ a := fun hh => has (hh ▸ hxs)
            have : a ∉ x :: seen := by
              intro hc
              rcases List.mem_cons.mp hc with hc | hc
              · exact hxa hc.symm
              · exact has hc
            rw [if_neg this] at ih
            rw [if_neg has]
            have hcnt : x ∈ xs ∨ ¬ x ∈ xs := em _
            simp only [List.count_cons, ih]
            have hxa2 : (x == a) = false := by simp [hxa]
            simp [hxa2]
        · rw [if_neg hxs] at h
          cases h
          by_cases hxa : x = a
          · subst hxa
            have hmx : x ∈ x :: seen := List.mem_cons_self _ _
            rw [if_pos hmx] at ih
            rw [if_neg hxs]
            simp [List.count_cons, ih]
          · have hmem : a ∈ x :: seen ↔ a ∈ seen := by
              constructor
              · intro hc
                rcases List.mem_cons.mp hc with hc | hc
                · exact absurd hc.symm hxa
                · exact hc
              · exact List.mem_cons_of_mem _
            have hxa2 : (x == a) = false := by simp [hxa]
            by_cases has : a ∈ seen
            · rw [if_pos (hmem.mpr has)] at ih
              rw [if_pos has]
              simp [List.count_cons, ih, hxa2]
            · rw [if_neg (fun hc => has (hmem.mp hc))] at ih
              rw [if_neg has]
              simp [List.count_cons, ih, hxa2]
    · rw [if_neg hx] at h
      exact absurd h (by simp)

theorem find_duplicates_aux_sublist :
    ∀ (l seen d : List Val), find_duplicates_aux seen l = .ok d → d.Sublist l
  | [], _, d, h => by
    simp only [find_duplicates_aux] at h
    cases h
    exact List.Sublist.refl []
  | x :: xs, seen, d, h => by
    simp only [find_duplicates_aux] at h
    by_cases hx : pyHashable x = true
    · rw [if_pos hx] at h
      cases hr : find_duplicates_aux (x :: seen) xs with
      | error e => rw [hr] at h; exact absurd h (by simp)
      | ok rest =>
        simp only [hr] at h
        have ih := find_duplicates_aux_sublist xs (x :: seen) rest hr
        by_cases hxs : x ∈ seen
        · rw [if_pos hxs] at h
          cases h
          exact ih.cons₂ x
        · rw [if_neg hxs] at h
          cases h
          exact ih.cons x
    · rw [if_neg hx] at h
      exact absurd h (by simp)

theorem find_duplicates_aux_ok :
    ∀ (l seen : List Val), (∀ x ∈ l, pyHashable x = true) →
      ∃ d, find_duplicates_aux seen l = .ok d
  | [], _, _ => ⟨[], rfl⟩
  | x :: xs, seen, h => by
    obtain ⟨rest, hr⟩ :=
      find_duplicates_aux_ok xs (x :: seen) (fun y hy => h y (List.mem_cons_of_mem _ hy))
    refine ⟨if x ∈ seen then x :: rest else rest, ?_⟩
    simp only [find_duplicates_aux, if_pos (h x (List.mem_cons_self _ _)), hr]
    by_cases hxs : x ∈ seen
    · rw [if_pos hxs, if_pos hxs]
    · rw [if_neg hxs, if_neg hxs]

theorem find_duplicates_count (a : Val) (l d : List Val) (h : find_duplicates l = .ok d) :
    d.count a = l.count a - 1 := by
  have := find_duplicates_aux_count a l [] d h
  simpa using this

theorem find_duplicates_sublist (l d : List Val) (h : find_duplicates l = .ok d) :
    d.Sublist l :=
  find_duplicates_aux_sublist l [] d h



theorem getTruthyNames_mk (ns : List Val) :
    getTruthyNames (ns.map mkNameDict) = .ok (ns.filter isTruthy) := by
  induction ns with
  | nil => rfl
  | cons n rest ih =>
    have h1 : pyGet (mkNameDict n) "name" = .ok n := rfl
    simp only [List.map_cons, getTruthyNames, h1, ih, List.filter_cons]
    by_cases hn : isTruthy n = true
    · simp [hn]
    · simp [hn]

theorem uniqScope_mk (ns : List Val) (fmt : Val → String)
    (hn : ∀ x ∈ ns, pyHashable x = true) :
    ∃ dups : List Val, find_duplicates (ns.filter isTruthy) = .ok dups ∧
      uniqScope (ns.map mkNameDict) fmt = .ok (dups.map fmt) := by
  obtain ⟨d, hd⟩ := find_duplicates_aux_ok (ns.filter isTruthy) []
    (fun x hx => hn x (List.mem_filter.mp hx).1)
  refine ⟨d, hd, ?_⟩
  simp only [uniqScope, getTruthyNames_mk, find_duplicates] at hd ⊢
  simp [hd]

theorem uniqFields_nameOnly (ns : List Val) :
    uniqFields (ns.map mkNameDict) = .ok [] := by
  induction ns with
  | nil => rfl
  | cons n rest ih =>
    have h1 : pyGetD (mkNameDict n) "name" (.vstr "<unnamed>") = .ok n := rfl
    have h2 : pyGetD (mkNameDict n) "fields" (.vlist []) = .ok (.vlist []) := rfl
    simp only [List.map_cons, uniqFields, h1, h2, pyIter, ih]
    rfl

/-- C1: within any scope, the uniqueness pass emits exactly one diagnostic
per re-occurrence of a name — a name occurring N times among the truthy
names yields N−1 diagnostics — emitted in document order (the duplicates
are a sublist of the scanned names), and absent/empty (falsy) names are
filtered out before duplicate detection, so they are never flagged and
never counted.  Stated for the shared scope routine `uniqScope` (every
scope of `validate_unique_names` runs it) and, end to end, for
`validate_unique_names` on a one-model document of named datasets. -/
theorem unique_names_claim (mname : String) (ns : List Val) (a : Val) (fmt : Val → String)
    (hn : ∀ x ∈ ns, pyHashable x = true) :
    ∃ dups : List Val,
      uniqScope (ns.map mkNameDict) fmt = .ok (dups.map fmt) ∧
      validate_unique_names (mkDatasetsDoc mname ns) = .ok (dups.map (fun dup =>
        "[Unique] Duplicate dataset name '" ++ pyStr dup ++ "' in model '" ++ mname ++ "'")) ∧
      dups.count a = (ns.filter isTruthy).count a - 1 ∧
      dups.Sublist (ns.filter isTruthy) ∧
      (∀ x ∈ dups, isTruthy x = true) := by
  obtain ⟨dups, hfd, hscope⟩ := uniqScope_mk ns fmt hn
  refine ⟨dups, hscope, ?_, find_duplicates_count a _ dups hfd,
    find_duplicates_sublist _ dups hfd, ?_⟩
  · obtain ⟨dups2, hfd2, hs2⟩ := uniqScope_mk ns (fun dup =>
      "[Unique] Duplicate dataset name '" ++ pyStr dup ++ "' in model '" ++ mname ++ "'") hn
    have hdd : dups2 = dups := by
      rw [hfd] at hfd2
      injection hfd2 with hh
      exact hh.symm
    subst hdd
    show validate_unique_names (mkDatasetsDoc mname ns) = _
    have e1 : pyGetD (mkDatasetsDoc mname ns) "semantic_model" (.vlist []) =
      .ok (.vlist [.vdict [("name", .vstr mname), ("datasets", .vlist (ns.map mkNameDict))]]) := rfl
    have e2 : pyGetD (Val.vdict [("name", .vstr mname), ("datasets", .vlist (ns.map mkNameDict))])
        "name" (.vstr "<unnamed>") = .ok (.vstr mname) := rfl
    have e3 : pyGetD (Val.vdict [("name", .vstr mname), ("datasets", .vlist (ns.map mkNameDict))])
        "datasets" (.vlist []) = .ok (.vlist (ns.map mkNameDict)) := rfl
    have e4 : pyGetD (Val.vdict [("name", .vstr mname), ("datasets", .vlist (ns.map mkNameDict))])
        "metrics" (.vlist []) = .ok (.vlist []) := rfl
    have e5 : pyGetD (Val.vdict [("name", .vstr mname), ("datasets", .vlist (ns.map mkNameDict))])
        "relationships" (.vlist []) = .ok (.vlist []) := rfl
    simp only [validate_unique_names, e1, pyIter, uniqModels, uniqModel, e2, e3, e4, e5,
      uniqFields_nameOnly, pyStr] at hs2 ⊢
    simp only [hs2]
    simp [uniqScope, getTruthyNames, find_duplicates, find_duplicates_aux]
  · intro x hx
    have hsub := find_duplicates_sublist _ dups hfd
    exact (List.mem_filter.mp (hsub.subset hx)).2

/-- Witness for C1 at the spec's example name list `[a, b, a, a]`. -/
theorem unique_names_claim_witness :
    (∀ x ∈ [Val.vstr "a", Val.vstr "b", Val.vstr "a", Val.vstr "a"], pyHashable x = true) ∧
    ∃ dups : List Val,
      uniqScope ([Val.vstr "a", Val.vstr "b", Val.vstr "a", Val.vstr "a"].map mkNameDict) pyStr =
        .ok (dups.map pyStr) ∧
      validate_unique_names
          (mkDatasetsDoc "m" [Val.vstr "a", Val.vstr "b", Val.vstr "a", Val.vstr "a"]) =
        .ok (dups.map (fun dup =>
          "[Unique] Duplicate dataset name '" ++ pyStr dup ++ "' in model '" ++ "m" ++ "'")) ∧
      dups.count (Val.vstr "a") =
        ([Val.vstr "a", Val.vstr "b", Val.vstr "a", Val.vstr "a"].filter isTruthy).count
          (Val.vstr "a") - 1 ∧
      dups.Sublist ([Val.vstr "a", Val.vstr "b", Val.vstr "a", Val.vstr "a"].filter isTruthy) ∧
      (∀ x ∈ dups, isTruthy x = true) :=
  ⟨by decide,
   unique_names_claim "m" [Val.vstr "a", Val.vstr "b", Val.vstr "a", Val.vstr "a"]
     (Val.vstr "a") pyStr (by decide)⟩

/-- C4: for every relationship, the reference pass emits one diagnostic
for the `from` endpoint exactly when it is truthy (present and non-empty)
and not among the model's dataset names, and independently one for the
`to` endpoint under the same condition — zero, one, or two diagnostics
per relationship, with absent/empty endpoints never flagged. -/
theorem references_claim (dnames : List Val) (relNameV fromV toV : Val) (rest : List Val)
    (hf : pyHashable fromV = true) (ht : pyHashable toV = true) :
    refEndpoint relNameV fromV dnames =
      .ok (if isTruthy fromV = true ∧ fromV ∉ dnames then [refMsg relNameV fromV] else []) ∧
    refEndpoint relNameV toV dnames =
      .ok (if isTruthy toV = true ∧ toV ∉ dnames then [refMsg relNameV toV] else []) ∧
    ∀ more, refRels dnames rest = .ok more →
      refRels dnames (.vdict [("name", relNameV), ("from", fromV), ("to", toV)] :: rest) =
        .ok ((if isTruthy fromV = true ∧ fromV ∉ dnames then [refMsg relNameV fromV] else [])
          ++ (if isTruthy toV = true ∧ toV ∉ dnames then [refMsg relNameV toV] else [])
          ++ more) := by
  have hend : ∀ endp : Val, pyHashable endp = true →
      refEndpoint relNameV endp dnames =
        .ok (if isTruthy endp = true ∧ endp ∉ dnames then [refMsg relNameV endp] else []) := by
    intro endp he
    simp only [refEndpoint, valSetMem, he, if_pos]
    by_cases htr : isTruthy endp = true
    · rw [if_pos htr]
      by_cases hmem : endp ∈ dnames
      · simp [hmem, htr]
      · simp [hmem, htr]
    · rw [if_neg htr]
      simp [htr]
  refine ⟨hend fromV hf, hend toV ht, ?_⟩
  intro more hmore
  have g1 : pyGetD (Val.vdict [("name", relNameV), ("from", fromV), ("to", toV)])
      "name" (.vstr "<unnamed>") = .ok relNameV := rfl
  have g2 : pyGet (Val.vdict [("name", relNameV), ("from", fromV), ("to", toV)]) "from" =
      .ok fromV := rfl
  have g3 : pyGet (Val.vdict [("name", relNameV), ("from", fromV), ("to", toV)]) "to" =
      .ok toV := rfl
  simp only [refRels, g1, g2, g3, hend fromV hf, hend toV ht, hmore]

/-- Witness for C4 at the spec's example: `from = X`, `to = Y`, only `X`
among the datasets — exactly one diagnostic, about `Y`. -/
theorem references_claim_witness :
    pyHashable (Val.vstr "X") = true ∧ pyHashable (Val.vstr "Y") = true ∧
    refRels [Val.vstr "X"]
        [Val.vdict [("name", .vstr "r"), ("from", .vstr "X"), ("to", .vstr "Y")]] =
      .ok [refMsg (.vstr "r") (.vstr "Y")] := by
  refine ⟨rfl, rfl, ?_⟩
  have h := (references_claim [Val.vstr "X"] (.vstr "r") (.vstr "X") (.vstr "Y") []
    rfl rfl).2.2 [] rfl
  rw [h]
  norm_num
  decide

theorem validate_sql_expression_eval (env : SqlEnv) (expr dialect : Val) (context : String)
    (hav : env.available = true)
    (hskip : dialect ≠ .vstr "MDX" ∧ dialect ≠ .vstr "TABLEAU")
    (hhash : pyHashable dialect = true) :
    validate_sql_expression env expr dialect context =
      .ok (match env.parse expr (dialectLookup dialect) with
        | .ok _ => none
        | .error _ =>
          match env.parse (.vstr ("SELECT " ++ pyStr expr)) (dialectLookup dialect) with
          | .ok _ => none
          | .error e2 => some ("[SQL] " ++ context ++ ": " ++ firstLine e2)) := by
  have hsm : strSetMem dialect SKIP_SQL_VALIDATION = .ok false := by
    simp [strSetMem, hhash, SKIP_SQL_VALIDATION, hskip.1, hskip.2]
  have hdm : dialectMapGet dialect = .ok (dialectLookup dialect) := by
    simp [dialectMapGet, hhash]
  simp only [validate_sql_expression, hav, Bool.not_true, Bool.false_eq_true, if_false, hsm, hdm]
  cases env.parse expr (dialectLookup dialect) with
  | ok u => rfl
  | error e1 =>
    cases env.parse (.vstr ("SELECT " ++ pyStr expr)) (dialectLookup dialect) with
    | ok u => rfl
    | error e2 => rfl

/-- C2: for an entry whose dialect has an available grammar, the
expression validator first tries the raw text, then the text prefixed
with `SELECT `; the entry yields zero diagnostics when either attempt
succeeds and exactly one diagnostic when both fail, carrying the
caller-supplied context (owning field or metric plus the dialect) and
only the first line of the parser error message. -/
theorem sql_expression_claim (env : SqlEnv) (expr dialect : Val) (context ctxPre : String)
    (hav : env.available = true)
    (hskip : dialect ≠ .vstr "MDX" ∧ dialect ≠ .vstr "TABLEAU")
    (hhash : pyHashable dialect = true) :
    (validate_sql_expression env expr dialect context = .ok none ↔
      (∃ u, env.parse expr (dialectLookup dialect) = .ok u) ∨
      (∃ u, env.parse (.vstr ("SELECT " ++ pyStr expr)) (dialectLookup dialect) = .ok u)) ∧
    (∀ e1 e2, env.parse expr (dialectLookup dialect) = .error e1 →
      env.parse (.vstr ("SELECT " ++ pyStr expr)) (dialectLookup dialect) = .error e2 →
      validate_sql_expression env expr dialect context =
        .ok (some ("[SQL] " ++ context ++ ": " ++ firstLine e2))) ∧
    (∀ s : String, s ≠ "" →
      ∃ r, validate_sql_expression env (.vstr s) dialect
          (ctxPre ++ " (" ++ pyStr dialect ++ ")") = .ok r ∧
        sqlEntries env ctxPre [.vdict [("dialect", dialect), ("expression", .vstr s)]] =
          .ok r.toList) := by
  have heval := validate_sql_expression_eval env expr dialect context hav hskip hhash
  refine ⟨?_, ?_, ?_⟩
  · rw [heval]
    cases hp : env.parse expr (dialectLookup dialect) with
    | ok u => simp
    | error e1 =>
      cases hq : env.parse (.vstr ("SELECT " ++ pyStr expr)) (dialectLookup dialect) with
      | ok u => simp
      | error e2 => simp
  · intro e1 e2 h1 h2
    rw [heval, h1, h2]
  · intro s hs
    have heval2 := validate_sql_expression_eval env (.vstr s) dialect
      (ctxPre ++ " (" ++ pyStr dialect ++ ")") hav hskip hhash
    refine ⟨_, heval2, ?_⟩
    have g1 : pyGetD (Val.vdict [("dialect", dialect), ("expression", .vstr s)])
        "dialect" (.vstr "ANSI_SQL") = .ok dialect := rfl
    have g2 : pyGetD (Val.vdict [("dialect", dialect), ("expression", .vstr s)])
        "expression" (.vstr "") = .ok (.vstr s) := rfl
    have hie : s.isEmpty = false := by
      by_contra hc
      rw [Bool.not_eq_false] at hc
      exact hs ((String.isEmpty_iff s).mp hc)
    have htr : isTruthy (Val.vstr s) = true := by
      simp [isTruthy, hie]
    simp only [sqlEntries, g1, g2, htr, if_pos, heval2]
    simp

/-- Witness for C2: both parse attempts fail with a two-line error;
exactly one diagnostic, with the context and the error's first line. -/
theorem sql_expression_claim_witness :
    (SqlEnv.available ⟨true, fun _ _ => .error "boom\nsecond line"⟩ = true ∧
      (Val.vstr "ANSI_SQL" ≠ .vstr "MDX" ∧ Val.vstr "ANSI_SQL" ≠ .vstr "TABLEAU") ∧
      pyHashable (.vstr "ANSI_SQL") = true) ∧
    validate_sql_expression ⟨true, fun _ _ => .error "boom\nsecond line"⟩
        (.vstr "1 +") (.vstr "ANSI_SQL") "Metric 'rev' (ANSI_SQL)" =
      .ok (some "[SQL] Metric 'rev' (ANSI_SQL): boom") := by
  refine ⟨⟨rfl, ⟨by decide, by decide⟩, rfl⟩, ?_⟩
  have h := (sql_expression_claim ⟨true, fun _ _ => .error "boom\nsecond line"⟩
    (.vstr "1 +") (.vstr "ANSI_SQL") "Metric 'rev' (ANSI_SQL)" "Metric 'rev'"
    rfl ⟨by decide, by decide⟩ rfl).2.1 "boom\nsecond line" "boom\nsecond line" rfl rfl
  exact h.trans (by rfl)

/-- C5: when the expression-parsing capability is unavailable
process-wide, the expression pass returns exactly one warning diagnostic
and zero syntax diagnostics for every document, and the per-expression
checker never reports anything — no expression is inspected. -/
theorem sql_unavailable_claim (env : SqlEnv) (data : Val) (h : env.available = false) :
    validate_sql env data = .ok [sqlglotWarning] ∧
    isWarning sqlglotWarning = true ∧
    (∀ expr dialect context, validate_sql_expression env expr dialect context = .ok none) := by
  refine ⟨?_, by decide, ?_⟩
  · simp [validate_sql, h]
  · intro expr dialect context
    simp [validate_sql_expression, h]

/-- Witness for C5 on a document that would otherwise produce a syntax
diagnostic. -/
theorem sql_unavailable_claim_witness :
    SqlEnv.available ⟨false, fun _ _ => .error "boom"⟩ = false ∧
    validate_sql ⟨false, fun _ _ => .error "boom"⟩
        (mkDatasetsDoc "m" [.vstr "a"]) = .ok [sqlglotWarning] :=
  ⟨rfl, (sql_unavailable_claim ⟨false, fun _ _ => .error "boom"⟩
    (mkDatasetsDoc "m" [.vstr "a"]) rfl).1⟩

/-- C6: for a dialect with no available grammar (`MDX` or `TABLEAU`), any
expression text whatsoever yields zero diagnostics, and no parse attempt
is made — the result is `none` for every parser `env.parse` alike. -/
theorem skip_dialect_claim (env : SqlEnv) (expr : Val) (context ctxPre : String) (d : Val)
    (h : d = .vstr "MDX" ∨ d = .vstr "TABLEAU") :
    validate_sql_expression env expr d context = .ok none ∧
    sqlEntries env ctxPre [.vdict [("dialect", d), ("expression", expr)]] = .ok [] := by
  have hmain : validate_sql_expression env expr d context = .ok none := by
    rcases h with h | h <;> subst h <;>
      cases hav : env.available <;>
        simp [validate_sql_expression, hav, strSetMem, pyHashable, SKIP_SQL_VALIDATION]
  refine ⟨hmain, ?_⟩
  have g1 : pyGetD (Val.vdict [("dialect", d), ("expression", expr)])
      "dialect" (.vstr "ANSI_SQL") = .ok d := rfl
  have g2 : pyGetD (Val.vdict [("dialect", d), ("expression", expr)])
      "expression" (.vstr "") = .ok expr := rfl
  have hmain2 : validate_sql_expression env expr d (ctxPre ++ " (" ++ pyStr d ++ ")") = .ok none := by
    rcases h with h | h <;> subst h <;>
      cases hav : env.available <;>
        simp [validate_sql_expression, hav, strSetMem, pyHashable, SKIP_SQL_VALIDATION]
  simp only [sqlEntries, g1, g2]
  cases htr : isTruthy expr <;> simp [hmain2, sqlEntries]

/-- Witness for C6: a hopelessly malformed MDX expression yields no
diagnostic even under a parser that always fails. -/
theorem skip_dialect_claim_witness :
    ((Val.vstr "MDX") = Val.vstr "MDX" ∨ (Val.vstr "MDX") = Val.vstr "TABLEAU") ∧
    validate_sql_expression ⟨true, fun _ _ => .error "always fails"⟩
        (.vstr "((( not sql at all") (.vstr "MDX") "Field 'd.f' (MDX)" = .ok none :=
  ⟨Or.inl rfl,
   (skip_dialect_claim ⟨true, fun _ _ => .error "always fails"⟩
     (.vstr "((( not sql at all") "Field 'd.f' (MDX)" "Field 'd.f'"
     (.vstr "MDX") (Or.inl rfl)).1⟩

/-- C7: the outcome is PASS (exit code 0) iff the actual (non-warning)
diagnostics are empty, even when warning diagnostics exist; when they are
non-empty the outcome is FAIL (exit code 1) and the report prints a
header with the count of actual errors followed by every one of them. -/
theorem report_claim (errors : List String) (fileName : String) :
    ((report errors fileName).2 = 0 ↔ errors.filter (fun e => !isWarning e) = []) ∧
    (errors.filter (fun e => !isWarning e) ≠ [] →
      (report errors fileName).2 = 1 ∧
      ("Validation FAILED with " ++ toString (errors.filter (fun e => !isWarning e)).length
        ++ " error(s):") ∈ (report errors fileName).1 ∧
      ∀ e ∈ errors.filter (fun e => !isWarning e),
        ("  " ++ e) ∈ (report errors fileName).1) := by
  by_cases he : errors.isEmpty = true
  · have hnil : errors = [] := List.isEmpty_iff.mp he
    subst hnil
    simp [report]
  · by_cases ha : (errors.filter (fun e => !isWarning e)).isEmpty = true
    · have hfe : errors.filter (fun e => !isWarning e) = [] := List.isEmpty_iff.mp ha
      constructor
      · simp [report, he, ha, hfe]
      · intro hcontra
        exact absurd hfe hcontra
    · have hfe : errors.filter (fun e => !isWarning e) ≠ [] := by
        intro hc
        exact ha (by simp [hc])
      have hrep : report errors fileName =
          ((errors.filter (fun e => isWarning e)).map (fun w => "  " ++ w)
            ++ ["", "Validation FAILED with "
                ++ toString (errors.filter (fun e => !isWarning e)).length ++ " error(s):", ""]
            ++ (errors.filter (fun e => !isWarning e)).map (fun e => "  " ++ e), 1) := by
        simp only [report, he, ha]
        simp
      constructor
      · simp [hrep, hfe]
      · intro _
        refine ⟨by simp [hrep], ?_, ?_⟩
        · rw [hrep]
          simp
        · intro e hme
          rw [hrep]
          have hmm : "  " ++ e ∈ (errors.filter (fun x => !isWarning x)).map
              (fun w => "  " ++ w) := List.mem_map_of_mem _ hme
          simp only [List.mem_append]
          exact Or.inr hmm

/-- Witness for C7: one warning plus one actual error — FAIL with count 1,
the error listed, and the same errors minus the actual one — PASS. -/
theorem report_claim_witness :
    (["[SQL] Warning: w", "[Unique] d"].filter (fun e => !isWarning e) ≠ [] →
      (report ["[SQL] Warning: w", "[Unique] d"] "f.yaml").2 = 1 ∧
      ("Validation FAILED with "
        ++ toString (["[SQL] Warning: w", "[Unique] d"].filter (fun e => !isWarning e)).length
        ++ " error(s):") ∈ (report ["[SQL] Warning: w", "[Unique] d"] "f.yaml").1 ∧
      ∀ e ∈ ["[SQL] Warning: w", "[Unique] d"].filter (fun e => !isWarning e),
        ("  " ++ e) ∈ (report ["[SQL] Warning: w", "[Unique] d"] "f.yaml").1) ∧
    ((report ["[SQL] Warning: w"] "f.yaml").2 = 0 ↔
      ["[SQL] Warning: w"].filter (fun e => !isWarning e) = []) :=
  ⟨(report_claim ["[SQL] Warning: w", "[Unique] d"] "f.yaml").2,
   (report_claim ["[SQL] Warning: w"] "f.yaml").1⟩

/-- C9: on every document all four passes run — an earlier pass's errors
do not suppress a later pass — and the merged list is exactly
schema ++ uniqueness ++ references ++ SQL, in that fixed order. -/
theorem merge_order_claim (senv : SchemaEnv) (env : SqlEnv) (data : Val)
    (u r q : List String)
    (hu : validate_unique_names data = .ok u)
    (hr : validate_references data = .ok r)
    (hq : validate_sql env data = .ok q) :
    runValidations senv env data = .ok (validate_schema senv data ++ u ++ r ++ q) := by
  simp [runValidations, hu, hr, hq]

/-- Witness for C9: the schema and uniqueness passes both report errors,
yet the reference and expression passes still run and their output is
appended in order. -/
theorem merge_order_claim_witness :
    validate_unique_names (mkDatasetsDoc "m" [.vstr "a", .vstr "a"]) =
      .ok ["[Unique] Duplicate dataset name 'a' in model 'm'"] ∧
    runValidations ⟨fun _ => [([Val.vint 0], "schema boom")]⟩
        ⟨false, fun _ _ => .error "x"⟩ (mkDatasetsDoc "m" [.vstr "a", .vstr "a"]) =
      .ok (["[Schema] 0: schema boom"]
        ++ ["[Unique] Duplicate dataset name 'a' in model 'm'"] ++ [] ++ [sqlglotWarning]) :=
  ⟨rfl,
   merge_order_claim ⟨fun _ => [([Val.vint 0], "schema boom")]⟩
     ⟨false, fun _ _ => .error "x"⟩ (mkDatasetsDoc "m" [.vstr "a", .vstr "a"])
     ["[Unique] Duplicate dataset name 'a' in model 'm'"] [] [sqlglotWarning]
     rfl rfl rfl⟩

/-- C10: a diagnostic is classified as a warning iff its text contains
the substring `Warning:` anywhere, so any diagnostic containing it —
including an expression syntax diagnostic `[SQL] context: message` whose
embedded parser message contains `Warning:` — is excluded from the actual
errors and cannot by itself cause a FAIL outcome. -/
theorem warning_marker_claim (errors : List String) (fileName c m : String)
    (hw : "Warning:".data <:+: m.data) :
    (∀ e : String, isWarning e = true ↔ "Warning:".data <:+: e.data) ∧
    (∀ e ∈ errors, isWarning e = true → e ∉ errors.filter (fun x => !isWarning x)) ∧
    ((∀ e ∈ errors, isWarning e = true) → (report errors fileName).2 = 0) ∧
    isWarning ("[SQL] " ++ c ++ ": " ++ m) = true ∧
    (report ["[SQL] " ++ c ++ ": " ++ m] fileName).2 = 0 := by
  have hsql : isWarning ("[SQL] " ++ c ++ ": " ++ m) = true := by
    simp only [isWarning, decide_eq_true_eq]
    have hsuf : m.data <:+ ("[SQL] " ++ c ++ ": " ++ m).data := by
      rw [String.data_append]
      exact List.suffix_append _ _
    exact hw.trans hsuf.isInfix
  have hallw : ∀ es : List String, (∀ e ∈ es, isWarning e = true) →
      (report es fileName).2 = 0 := by
    intro es hes
    have hfe : es.filter (fun x => !isWarning x) = [] := by
      rw [List.filter_eq_nil_iff]
      intro a ha
      simp [hes a ha]
    by_cases he : es.isEmpty = true
    · simp [report, he]
    · simp [report, he, hfe]
  refine ⟨?_, ?_, hallw errors, hsql, ?_⟩
  · intro e
    simp [isWarning]
  · intro e _ hwarn hmem
    rw [List.mem_filter] at hmem
    simp [hwarn] at hmem
  · exact hallw _ (by simp [hsql])

/-- Witness for C10: an expression syntax diagnostic whose parser message
contains `Warning:` is a warning and alone produces a PASS. -/
theorem warning_marker_claim_witness :
    ("Warning:".data <:+: "parse Warning: odd syntax".data) ∧
    isWarning ("[SQL] " ++ "Metric 'rev' (ANSI_SQL)" ++ ": " ++ "parse Warning: odd syntax") = true ∧
    (report ["[SQL] " ++ "Metric 'rev' (ANSI_SQL)" ++ ": " ++ "parse Warning: odd syntax"]
      "f.yaml").2 = 0 := by
  have h := warning_marker_claim [] "f.yaml" "Metric 'rev' (ANSI_SQL)"
    "parse Warning: odd syntax" (by decide)
  exact ⟨by decide, h.2.2.2.1, h.2.2.2.2⟩











theorem keyWF_getD (m : List (String × Val)) (k : String) (p : Val → Bool) (d : Val)
    (hk : keyWF m k p = true) (hd : p d = true) : p ((m.lookup k).getD d) = true := by
  rw [keyWF] at hk
  cases hl : m.lookup k with
  | some v => rw [hl] at hk; simpa using hk
  | none => simpa using hd

theorem pyGetD_dict (m : List (String × Val)) (k : String) (d : Val) :
    pyGetD (.vdict m) k d = .ok ((m.lookup k).getD d) := rfl

theorem pyGet_dict (m : List (String × Val)) (k : String) :
    pyGet (.vdict m) k = .ok ((m.lookup k).getD .vnull) := rfl

theorem isListAll_iter (p : Val → Bool) (v : Val) (h : isListAll p v = true) :
    ∃ xs, pyIter v = .ok xs ∧ ∀ x ∈ xs, p x = true := by
  cases v <;> simp [isListAll] at h
  case vlist xs => exact ⟨xs, rfl, h⟩

theorem dictHashName_dict (v : Val) (h : dictHashName v = true) :
    ∃ m, v = Val.vdict m ∧ keyWF m "name" pyHashable = true := by
  cases v <;> simp [dictHashName] at h
  case vdict m => exact ⟨m, rfl, h⟩

theorem wfDataset_dict (v : Val) (h : wfDataset v = true) :
    ∃ m, v = Val.vdict m ∧ keyWF m "name" pyHashable = true ∧
      keyWF m "fields" (isListAll wfExprOwner) = true := by
  cases v <;> simp [wfDataset] at h
  case vdict m => exact ⟨m, rfl, h.1, h.2⟩

theorem wfExprOwner_dict (v : Val) (h : wfExprOwner v = true) :
    ∃ m, v = Val.vdict m ∧ keyWF m "name" pyHashable = true ∧
      keyWF m "expression" wfExpression = true := by
  cases v <;> simp [wfExprOwner] at h
  case vdict m => exact ⟨m, rfl, h.1, h.2⟩

theorem wfRelationship_dict (v : Val) (h : wfRelationship v = true) :
    ∃ m, v = Val.vdict m ∧ keyWF m "name" pyHashable = true ∧
      keyWF m "from" pyHashable = true ∧ keyWF m "to" pyHashable = true := by
  cases v <;> simp [wfRelationship] at h
  case vdict m => exact ⟨m, rfl, h.1.1, h.1.2, h.2⟩

theorem wfExpression_dict (v : Val) (h : wfExpression v = true) :
    ∃ m, v = Val.vdict m ∧ keyWF m "dialects" (isListAll wfDialectEntry) = true := by
  cases v <;> simp [wfExpression] at h
  case vdict m => exact ⟨m, rfl, h⟩

theorem wfDialectEntry_dict (v : Val) (h : wfDialectEntry v = true) :
    ∃ m, v = Val.vdict m ∧ keyWF m "dialect" pyHashable = true := by
  cases v <;> simp [wfDialectEntry] at h
  case vdict m => exact ⟨m, rfl, h⟩

theorem wfModel_dict (v : Val) (h : wfModel v = true) :
    ∃ m, v = Val.vdict m ∧ keyWF m "datasets" (isListAll wfDataset) = true ∧
      keyWF m "metrics" (isListAll wfExprOwner) = true ∧
      keyWF m "relationships" (isListAll wfRelationship) = true := by
  cases v <;> simp [wfModel] at h
  case vdict m => exact ⟨m, rfl, h.1.1, h.1.2, h.2⟩

theorem wfDataset_hashName (v : Val) (h : wfDataset v = true) : dictHashName v = true := by
  obtain ⟨m, rfl, h1, _⟩ := wfDataset_dict v h
  simpa [dictHashName] using h1

theorem wfExprOwner_hashName (v : Val) (h : wfExprOwner v = true) : dictHashName v = true := by
  obtain ⟨m, rfl, h1, _⟩ := wfExprOwner_dict v h
  simpa [dictHashName] using h1

theorem wfRelationship_hashName (v : Val) (h : wfRelationship v = true) :
    dictHashName v = true := by
  obtain ⟨m, rfl, h1, _, _⟩ := wfRelationship_dict v h
  simpa [dictHashName] using h1

theorem getTruthyNames_ok : ∀ (entries : List Val),
    (∀ d ∈ entries, dictHashName d = true) →
    ∃ ns, getTruthyNames entries = .ok ns ∧ ∀ x ∈ ns, pyHashable x = true
  | [], _ => ⟨[], rfl, by simp⟩
  | d :: rest, h => by
    obtain ⟨m, rfl, hk⟩ := dictHashName_dict d (h d (List.mem_cons_self _ _))
    obtain ⟨ns, hns, hall⟩ :=
      getTruthyNames_ok rest (fun x hx => h x (List.mem_cons_of_mem _ hx))
    have hv : pyHashable ((m.lookup "name").getD .vnull) = true :=
      keyWF_getD m "name" pyHashable .vnull hk rfl
    refine ⟨if isTruthy ((m.lookup "name").getD .vnull) then
      ((m.lookup "name").getD .vnull) :: ns else ns, ?_, ?_⟩
    · simp only [getTruthyNames, pyGet_dict, hns]
      by_cases ht : isTruthy ((m.lookup "name").getD .vnull) = true
      · rw [if_pos ht, if_pos ht]
      · rw [if_neg ht, if_neg ht]
    · by_cases ht : isTruthy ((m.lookup "name").getD .vnull) = true
      · rw [if_pos ht]
        intro x hx
        rcases List.mem_cons.mp hx with hx | hx
        · subst hx; exact hv
        · exact hall x hx
      · rw [if_neg ht]; exact hall

theorem uniqScope_ok (entries : List Val) (fmt : Val → String)
    (h : ∀ d ∈ entries, dictHashName d = true) :
    ∃ l, uniqScope entries fmt = .ok l := by
  obtain ⟨ns, hns, hall⟩ := getTruthyNames_ok entries h
  obtain ⟨dups, hdups⟩ := find_duplicates_aux_ok ns [] hall
  refine ⟨dups.map fmt, ?_⟩
  simp only [uniqScope, hns, find_duplicates, hdups]

theorem uniqFields_ok : ∀ (datasets : List Val),
    (∀ d ∈ datasets, wfDataset d = true) → ∃ l, uniqFields datasets = .ok l
  | [], _ => ⟨[], rfl⟩
  | dset :: rest, h => by
    obtain ⟨m, rfl, hname, hfields⟩ := wfDataset_dict dset (h dset (List.mem_cons_self _ _))
    obtain ⟨more, hmore⟩ := uniqFields_ok rest (fun x hx => h x (List.mem_cons_of_mem _ hx))
    have hfv : isListAll wfExprOwner ((m.lookup "fields").getD (.vlist [])) = true :=
      keyWF_getD m "fields" _ _ hfields rfl
    obtain ⟨fields, hiter, hfall⟩ := isListAll_iter _ _ hfv
    obtain ⟨errs, herrs⟩ := uniqScope_ok fields (fun dup =>
      "[Unique] Duplicate field name '" ++ pyStr dup ++ "' in dataset '"
        ++ pyStr ((m.lookup "name").getD (.vstr "<unnamed>")) ++ "'")
      (fun x hx => wfExprOwner_hashName x (hfall x hx))
    refine ⟨errs ++ more, ?_⟩
    simp only [uniqFields, pyGetD_dict, hiter, herrs, hmore]

theorem uniqModel_ok (model : Val) (h : wfModel model = true) :
    ∃ l, uniqModel model = .ok l := by
  obtain ⟨m, rfl, hds, hms, hrs⟩ := wfModel_dict model h
  have hdv : isListAll wfDataset ((m.lookup "datasets").getD (.vlist [])) = true :=
    keyWF_getD m "datasets" _ _ hds rfl
  obtain ⟨datasets, hiter, hdall⟩ := isListAll_iter _ _ hdv
  obtain ⟨e1, he1⟩ := uniqScope_ok datasets (fun dup =>
    "[Unique] Duplicate dataset name '" ++ pyStr dup ++ "' in model '"
      ++ pyStr ((m.lookup "name").getD (.vstr "<unnamed>")) ++ "'")
    (fun x hx => wfDataset_hashName x (hdall x hx))
  obtain ⟨e2, he2⟩ := uniqFields_ok datasets hdall
  have hmv : isListAll wfExprOwner ((m.lookup "metrics").getD (.vlist [])) = true :=
    keyWF_getD m "metrics" _ _ hms rfl
  obtain ⟨metrics, hiter2, hmall⟩ := isListAll_iter _ _ hmv
  obtain ⟨e3, he3⟩ := uniqScope_ok metrics (fun dup =>
    "[Unique] Duplicate metric name '" ++ pyStr dup ++ "' in model '"
      ++ pyStr ((m.lookup "name").getD (.vstr "<unnamed>")) ++ "'")
    (fun x hx => wfExprOwner_hashName x (hmall x hx))
  have hrv : isListAll wfRelationship ((m.lookup "relationships").getD (.vlist [])) = true :=
    keyWF_getD m "relationships" _ _ hrs rfl
  obtain ⟨rels, hiter3, hrall⟩ := isListAll_iter _ _ hrv
  obtain ⟨e4, he4⟩ := uniqScope_ok rels (fun dup =>
    "[Unique] Duplicate relationship name '" ++ pyStr dup ++ "' in model '"
      ++ pyStr ((m.lookup "name").getD (.vstr "<unnamed>")) ++ "'")
    (fun x hx => wfRelationship_hashName x (hrall x hx))
  refine ⟨e1 ++ e2 ++ e3 ++ e4, ?_⟩
  simp only [uniqModel, pyGetD_dict, hiter, he1, he2, hiter2, he3, hiter3, he4]

theorem uniqModels_ok : ∀ (models : List Val),
    (∀ x ∈ models, wfModel x = true) → ∃ l, uniqModels models = .ok l
  | [], _ => ⟨[], rfl⟩
  | model :: rest, h => by
    obtain ⟨errs, herrs⟩ := uniqModel_ok model (h model (List.mem_cons_self _ _))
    obtain ⟨more, hmore⟩ := uniqModels_ok rest (fun x hx => h x (List.mem_cons_of_mem _ hx))
    exact ⟨errs ++ more, by simp only [uniqModels, herrs, hmore]⟩

theorem validate_unique_names_ok (data : Val) (h : wfDoc data = true) :
    ∃ l, validate_unique_names data = .ok l := by
  cases data <;> simp [wfDoc] at h
  case vdict m =>
    have hmv : isListAll wfModel ((m.lookup "semantic_model").getD (.vlist [])) = true :=
      keyWF_getD m "semantic_model" _ _ h rfl
    obtain ⟨models, hiter, hall⟩ := isListAll_iter _ _ hmv
    obtain ⟨l, hl⟩ := uniqModels_ok models hall
    exact ⟨l, by simp only [validate_unique_names, pyGetD_dict, hiter, hl]⟩

theorem buildNameSet_ok : ∀ (datasets : List Val),
    (∀ d ∈ datasets, dictHashName d = true) → ∃ s, buildNameSet datasets = .ok s
  | [], _ => ⟨[], rfl⟩
  | d :: rest, h => by
    obtain ⟨m, rfl, hk⟩ := dictHashName_dict d (h d (List.mem_cons_self _ _))
    obtain ⟨s, hs⟩ := buildNameSet_ok rest (fun x hx => h x (List.mem_cons_of_mem _ hx))
    have hv : pyHashable ((m.lookup "name").getD .vnull) = true :=
      keyWF_getD m "name" pyHashable .vnull hk rfl
    by_cases ht : isTruthy ((m.lookup "name").getD .vnull) = true
    · refine ⟨((m.lookup "name").getD .vnull) :: s, ?_⟩
      simp only [buildNameSet, pyGet_dict, ht, if_pos, hv, hs]
    · refine ⟨s, ?_⟩
      simp only [buildNameSet, pyGet_dict, hs]
      rw [if_neg ht]

theorem refEndpoint_ok (relNameV endp : Val) (dnames : List Val)
    (h : pyHashable endp = true) : ∃ l, refEndpoint relNameV endp dnames = .ok l := by
  by_cases ht : isTruthy endp = true
  · refine ⟨if decide (endp ∈ dnames) then [] else [refMsg relNameV endp], ?_⟩
    simp only [refEndpoint, ht, if_pos, valSetMem, h]
  · exact ⟨[], by simp only [refEndpoint]; rw [if_neg ht]⟩

theorem refRels_ok (dnames : List Val) : ∀ (rels : List Val),
    (∀ r ∈ rels, wfRelationship r = true) → ∃ l, refRels dnames rels = .ok l
  | [], _ => ⟨[], rfl⟩
  | rel :: rest, h => by
    obtain ⟨m, rfl, hn, hf, ht⟩ := wfRelationship_dict rel (h rel (List.mem_cons_self _ _))
    obtain ⟨more, hmore⟩ := refRels_ok dnames rest (fun x hx => h x (List.mem_cons_of_mem _ hx))
    obtain ⟨e1, he1⟩ := refEndpoint_ok ((m.lookup "name").getD (.vstr "<unnamed>"))
      ((m.lookup "from").getD .vnull) dnames (keyWF_getD m "from" pyHashable .vnull hf rfl)
    obtain ⟨e2, he2⟩ := refEndpoint_ok ((m.lookup "name").getD (.vstr "<unnamed>"))
      ((m.lookup "to").getD .vnull) dnames (keyWF_getD m "to" pyHashable .vnull ht rfl)
    refine ⟨e1 ++ e2 ++ more, ?_⟩
    simp only [refRels, pyGetD_dict, pyGet_dict, he1, he2, hmore]

theorem refModel_ok (model : Val) (h : wfModel model = true) :
    ∃ l, refModel model = .ok l := by
  obtain ⟨m, rfl, hds, _, hrs⟩ := wfModel_dict model h
  have hdv : isListAll wfDataset ((m.lookup "datasets").getD (.vlist [])) = true :=
    keyWF_getD m "datasets" _ _ hds rfl
  obtain ⟨datasets, hiter, hdall⟩ := isListAll_iter _ _ hdv
  obtain ⟨s, hs⟩ := buildNameSet_ok datasets (fun x hx => wfDataset_hashName x (hdall x hx))
  have hrv : isListAll wfRelationship ((m.lookup "relationships").getD (.vlist [])) = true :=
    keyWF_getD m "relationships" _ _ hrs rfl
  obtain ⟨rels, hiter2, hrall⟩ := isListAll_iter _ _ hrv
  obtain ⟨l, hl⟩ := refRels_ok s rels hrall
  exact ⟨l, by simp only [refModel, pyGetD_dict, hiter, hs, hiter2, hl]⟩

theorem refModels_ok : ∀ (models : List Val),
    (∀ x ∈ models, wfModel x = true) → ∃ l, refModels models = .ok l
  | [], _ => ⟨[], rfl⟩
  | model :: rest, h => by
    obtain ⟨errs, herrs⟩ := refModel_ok model (h model (List.mem_cons_self _ _))
    obtain ⟨more, hmore⟩ := refModels_ok rest (fun x hx => h x (List.mem_cons_of_mem _ hx))
    exact ⟨errs ++ more, by simp only [refModels, herrs, hmore]⟩

theorem validate_references_ok (data : Val) (h : wfDoc data = true) :
    ∃ l, validate_references data = .ok l := by
  cases data <;> simp [wfDoc] at h
  case vdict m =>
    have hmv : isListAll wfModel ((m.lookup "semantic_model").getD (.vlist [])) = true :=
      keyWF_getD m "semantic_model" _ _ h rfl
    obtain ⟨models, hiter, hall⟩ := isListAll_iter _ _ hmv
    obtain ⟨l, hl⟩ := refModels_ok models hall
    exact ⟨l, by simp only [validate_references, pyGetD_dict, hiter, hl]⟩

theorem validate_sql_expression_ok (env : SqlEnv) (expr dialect : Val) (context : String)
    (h : pyHashable dialect = true) :
    ∃ r, validate_sql_expression env expr dialect context = .ok r := by
  cases hav : env.available
  · exact ⟨none, by simp [validate_sql_expression, hav]⟩
  · have hsm : strSetMem dialect SKIP_SQL_VALIDATION =
        .ok (SKIP_SQL_VALIDATION.any (fun x => decide (dialect = .vstr x))) := by
      simp [strSetMem, h]
    have hdm : dialectMapGet dialect = .ok (dialectLookup dialect) := by
      simp [dialectMapGet, h]
    simp only [validate_sql_expression, hav, Bool.not_true, Bool.false_eq_true, if_false, hsm, hdm]
    by_cases hskip : SKIP_SQL_VALIDATION.any (fun x => decide (dialect = .vstr x)) = true
    · exact ⟨none, by rw [hskip]; simp⟩
    · rw [Bool.not_eq_true] at hskip
      rw [hskip]
      simp only [Bool.false_eq_true, if_false]
      cases env.parse expr (dialectLookup dialect)
      · cases env.parse (.vstr ("SELECT " ++ pyStr expr)) (dialectLookup dialect)
        · exact ⟨_, rfl⟩
        · exact ⟨none, rfl⟩
      · exact ⟨none, rfl⟩

theorem sqlEntries_ok (env : SqlEnv) (ctxPre : String) : ∀ (des : List Val),
    (∀ x ∈ des, wfDialectEntry x = true) → ∃ l, sqlEntries env ctxPre des = .ok l
  | [], _ => ⟨[], rfl⟩
  | de :: rest, h => by
    obtain ⟨m, rfl, hk⟩ := wfDialectEntry_dict de (h de (List.mem_cons_self _ _))
    obtain ⟨more, hmore⟩ := sqlEntries_ok env ctxPre rest
      (fun x hx => h x (List.mem_cons_of_mem _ hx))
    have hdl : pyHashable ((m.lookup "dialect").getD (.vstr "ANSI_SQL")) = true :=
      keyWF_getD m "dialect" pyHashable (.vstr "ANSI_SQL") hk rfl
    by_cases ht : isTruthy ((m.lookup "expression").getD (.vstr "")) = true
    · obtain ⟨r, hr⟩ := validate_sql_expression_ok env
        ((m.lookup "expression").getD (.vstr ""))
        ((m.lookup "dialect").getD (.vstr "ANSI_SQL"))
        (ctxPre ++ " (" ++ pyStr ((m.lookup "dialect").getD (.vstr "ANSI_SQL")) ++ ")") hdl
      refine ⟨r.toList ++ more, ?_⟩
      simp only [sqlEntries, pyGetD_dict, ht, if_pos, hr, hmore]
    · refine ⟨more, ?_⟩
      simp only [sqlEntries, pyGetD_dict, hmore]
      rw [if_neg ht]
      rfl

theorem sqlFields_ok (env : SqlEnv) (dname : String) : ∀ (fields : List Val),
    (∀ x ∈ fields, wfExprOwner x = true) → ∃ l, sqlFields env dname fields = .ok l
  | [], _ => ⟨[], rfl⟩
  | f :: rest, h => by
    obtain ⟨m, rfl, hn, he⟩ := wfExprOwner_dict f (h f (List.mem_cons_self _ _))
    obtain ⟨more, hmore⟩ := sqlFields_ok env dname rest
      (fun x hx => h x (List.mem_cons_of_mem _ hx))
    have hev : wfExpression ((m.lookup "expression").getD (.vdict [])) = true :=
      keyWF_getD m "expression" wfExpression (.vdict []) he rfl
    obtain ⟨em, hem, hdl⟩ := wfExpression_dict _ hev
    have hdv : isListAll wfDialectEntry ((em.lookup "dialects").getD (.vlist [])) = true :=
      keyWF_getD em "dialects" _ _ hdl rfl
    obtain ⟨des, hiter, hdall⟩ := isListAll_iter _ _ hdv
    obtain ⟨errs, herrs⟩ := sqlEntries_ok env
      ("Field '" ++ dname ++ "." ++ pyStr ((m.lookup "name").getD (.vstr "<unnamed>")) ++ "'")
      des hdall
    refine ⟨errs ++ more, ?_⟩
    simp only [sqlFields, pyGetD_dict, hem, hiter, herrs, hmore]

theorem sqlDatasets_ok (env : SqlEnv) : ∀ (datasets : List Val),
    (∀ d ∈ datasets, wfDataset d = true) → ∃ l, sqlDatasets env datasets = .ok l
  | [], _ => ⟨[], rfl⟩
  | dset :: rest, h => by
    obtain ⟨m, rfl, hn, hf⟩ := wfDataset_dict dset (h dset (List.mem_cons_self _ _))
    obtain ⟨more, hmore⟩ := sqlDatasets_ok env rest (fun x hx => h x (List.mem_cons_of_mem _ hx))
    have hfv : isListAll wfExprOwner ((m.lookup "fields").getD (.vlist [])) = true :=
      keyWF_getD m "fields" _ _ hf rfl
    obtain ⟨fields, hiter, hfall⟩ := isListAll_iter _ _ hfv
    obtain ⟨errs, herrs⟩ := sqlFields_ok env
      (pyStr ((m.lookup "name").getD (.vstr "<unnamed>"))) fields hfall
    refine ⟨errs ++ more, ?_⟩
    simp only [sqlDatasets, pyGetD_dict, hiter, herrs, hmore]

theorem sqlMetrics_ok (env : SqlEnv) : ∀ (metrics : List Val),
    (∀ x ∈ metrics, wfExprOwner x = true) → ∃ l, sqlMetrics env metrics = .ok l
  | [], _ => ⟨[], rfl⟩
  | metric :: rest, h => by
    obtain ⟨m, rfl, hn, he⟩ := wfExprOwner_dict metric (h metric (List.mem_cons_self _ _))
    obtain ⟨more, hmore⟩ := sqlMetrics_ok env rest (fun x hx => h x (List.mem_cons_of_mem _ hx))
    have hev : wfExpression ((m.lookup "expression").getD (.vdict [])) = true :=
      keyWF_getD m "expression" wfExpression (.vdict []) he rfl
    obtain ⟨em, hem, hdl⟩ := wfExpression_dict _ hev
    have hdv : isListAll wfDialectEntry ((em.lookup "dialects").getD (.vlist [])) = true :=
      keyWF_getD em "dialects" _ _ hdl rfl
    obtain ⟨des, hiter, hdall⟩ := isListAll_iter _ _ hdv
    obtain ⟨errs, herrs⟩ := sqlEntries_ok env
      ("Metric '" ++ pyStr ((m.lookup "name").getD (.vstr "<unnamed>")) ++ "'") des hdall
    refine ⟨errs ++ more, ?_⟩
    simp only [sqlMetrics, pyGetD_dict, hem, hiter, herrs, hmore]

theorem sqlModel_ok (env : SqlEnv) (model : Val) (h : wfModel model = true) :
    ∃ l, sqlModel env model = .ok l := by
  obtain ⟨m, rfl, hds, hms, _⟩ := wfModel_dict model h
  have hdv : isListAll wfDataset ((m.lookup "datasets").getD (.vlist [])) = true :=
    keyWF_getD m "datasets" _ _ hds rfl
  obtain ⟨datasets, hiter, hdall⟩ := isListAll_iter _ _ hdv
  obtain ⟨e1, he1⟩ := sqlDatasets_ok env datasets hdall
  have hmv : isListAll wfExprOwner ((m.lookup "metrics").getD (.vlist [])) = true :=
    keyWF_getD m "metrics" _ _ hms rfl
  obtain ⟨metrics, hiter2, hmall⟩ := isListAll_iter _ _ hmv
  obtain ⟨e2, he2⟩ := sqlMetrics_ok env metrics hmall
  exact ⟨e1 ++ e2, by simp only [sqlModel, pyGetD_dict, hiter, he1, hiter2, he2]⟩

theorem sqlModels_ok (env : SqlEnv) : ∀ (models : List Val),
    (∀ x ∈ models, wfModel x = true) → ∃ l, sqlModels env models = .ok l
  | [], _ => ⟨[], rfl⟩
  | model :: rest, h => by
    obtain ⟨errs, herrs⟩ := sqlModel_ok env model (h model (List.mem_cons_self _ _))
    obtain ⟨more, hmore⟩ := sqlModels_ok env rest (fun x hx => h x (List.mem_cons_of_mem _ hx))
    exact ⟨errs ++ more, by simp only [sqlModels, herrs, hmore]⟩

theorem validate_sql_ok (env : SqlEnv) (data : Val) (h : wfDoc data = true) :
    ∃ l, validate_sql env data = .ok l := by
  cases hav : env.available
  · exact ⟨[sqlglotWarning], by simp [validate_sql, hav]⟩
  · cases data <;> simp [wfDoc] at h
    case vdict m =>
      have hmv : isListAll wfModel ((m.lookup "semantic_model").getD (.vlist [])) = true :=
        keyWF_getD m "semantic_model" _ _ h rfl
      obtain ⟨models, hiter, hall⟩ := isListAll_iter _ _ hmv
      obtain ⟨l, hl⟩ := sqlModels_ok env models hall
      exact ⟨l, by simp only [validate_sql, hav, Bool.not_true, Bool.false_eq_true, if_false,
        pyGetD_dict, hiter, hl]⟩

/-- C3 (amended): for every document that is shaped as the data model
describes — mappings where Model/Dataset/Field/Metric/Relationship/
Expression entries are expected, with any subset of keys present and
scalar name/endpoint/dialect values — every validation pass returns a
list of diagnostics without raising, treating missing keys as empty; a
non-mapping where an entry is expected raises a Python exception instead
(see the counterexample). -/
theorem no_crash_claim (senv : SchemaEnv) (env : SqlEnv) (data : Val)
    (h : wfDoc data = true) :
    ∃ l1 l2 l3, validate_unique_names data = .ok l1 ∧
      validate_references data = .ok l2 ∧
      validate_sql env data = .ok l3 ∧
      runValidations senv env data = .ok (validate_schema senv data ++ l1 ++ l2 ++ l3) := by
  obtain ⟨l1, h1⟩ := validate_unique_names_ok data h
  obtain ⟨l2, h2⟩ := validate_references_ok data h
  obtain ⟨l3, h3⟩ := validate_sql_ok env data h
  exact ⟨l1, l2, l3, h1, h2, h3, by simp only [runValidations, h1, h2, h3]⟩

/-- Counterexample to C3 as stated: on `{"semantic_model": [42]}` — a
non-mapping where a Model is expected — the uniqueness and reference
passes raise `AttributeError` (Python `42 .get(...)`) instead of
returning diagnostics, and the expression pass does too when the parser
is available. -/
theorem no_crash_counterexample :
    validate_unique_names (.vdict [("semantic_model", .vlist [.vint 42])]) =
      .error .attributeError ∧
    validate_references (.vdict [("semantic_model", .vlist [.vint 42])]) =
      .error .attributeError ∧
    validate_sql ⟨true, fun _ _ => .ok ()⟩
        (.vdict [("semantic_model", .vlist [.vint 42])]) =
      .error .attributeError :=
  ⟨rfl, rfl, rfl⟩

/-- Witness for C3 on a document exercising every level: one model with a
dataset (field with a dialect expression), a metric, and a relationship,
plus missing keys elsewhere. -/
theorem no_crash_claim_witness :
    wfDoc (.vdict [("semantic_model", .vlist [
      .vdict [("name", .vstr "m"),
              ("datasets", .vlist [.vdict [("name", .vstr "d"),
                ("fields", .vlist [.vdict [("name", .vstr "f"),
                  ("expression", .vdict [("dialects", .vlist [
                    .vdict [("dialect", .vstr "ANSI_SQL"), ("expression", .vstr "1 +")]])])]])]]),
              ("metrics", .vlist [.vdict []]),
              ("relationships", .vlist [.vdict [("from", .vstr "d"), ("to", .vstr "nope")]])]])]) =
      true ∧
    ∃ l1 l2 l3,
      validate_unique_names (.vdict [("semantic_model", .vlist [
        .vdict [("name", .vstr "m"),
                ("datasets", .vlist [.vdict [("name", .vstr "d"),
                  ("fields", .vlist [.vdict [("name", .vstr "f"),
                    ("expression", .vdict [("dialects", .vlist [
                      .vdict [("dialect", .vstr "ANSI_SQL"), ("expression", .vstr "1 +")]])])]])]]),
                ("metrics", .vlist [.vdict []]),
                ("relationships", .vlist [.vdict [("from", .vstr "d"), ("to", .vstr "nope")]])]])]) =
        .ok l1 ∧
      validate_references (.vdict [("semantic_model", .vlist [
        .vdict [("name", .vstr "m"),
                ("datasets", .vlist [.vdict [("name", .vstr "d"),
                  ("fields", .vlist [.vdict [("name", .vstr "f"),
                    ("expression", .vdict [("dialects", .vlist [
                      .vdict [("dialect", .vstr "ANSI_SQL"), ("expression", .vstr "1 +")]])])]])]]),
                ("metrics", .vlist [.vdict []]),
                ("relationships", .vlist [.vdict [("from", .vstr "d"), ("to", .vstr "nope")]])]])]) =
        .ok l2 ∧
      validate_sql ⟨true, fun _ _ => .error "boom"⟩ (.vdict [("semantic_model", .vlist [
        .vdict [("name", .vstr "m"),
                ("datasets", .vlist [.vdict [("name", .vstr "d"),
                  ("fields", .vlist [.vdict [("name", .vstr "f"),
                    ("expression", .vdict [("dialects", .vlist [
                      .vdict [("dialect", .vstr "ANSI_SQL"), ("expression", .vstr "1 +")]])])]])]]),
                ("metrics", .vlist [.vdict []]),
                ("relationships", .vlist [.vdict [("from", .vstr "d"), ("to", .vstr "nope")]])]])]) =
        .ok l3 ∧
      runValidations ⟨fun _ => []⟩ ⟨true, fun _ _ => .error "boom"⟩
          (.vdict [("semantic_model", .vlist [
        .vdict [("name", .vstr "m"),
                ("datasets", .vlist [.vdict [("name", .vstr "d"),
                  ("fields", .vlist [.vdict [("name", .vstr "f"),
                    ("expression", .vdict [("dialects", .vlist [
                      .vdict [("dialect", .vstr "ANSI_SQL"), ("expression", .vstr "1 +")]])])]])]]),
                ("metrics", .vlist [.vdict []]),
                ("relationships", .vlist [.vdict [("from", .vstr "d"), ("to", .vstr "nope")]])]])]) =
        .ok (validate_schema ⟨fun _ => []⟩ (.vdict [("semantic_model", .vlist [
        .vdict [("name", .vstr "m"),
                ("datasets", .vlist [.vdict [("name", .vstr "d"),
                  ("fields", .vlist [.vdict [("name", .vstr "f"),
                    ("expression", .vdict [("dialects", .vlist [
                      .vdict [("dialect", .vstr "ANSI_SQL"), ("expression", .vstr "1 +")]])])]])]]),
                ("metrics", .vlist [.vdict []]),
                ("relationships", .vlist [.vdict [("from", .vstr "d"), ("to", .vstr "nope")]])]])])
          ++ l1 ++ l2 ++ l3) :=
  ⟨rfl, no_crash_claim ⟨fun _ => []⟩ ⟨true, fun _ _ => .error "boom"⟩ _ rfl⟩




theorem taggedDiag_extend (kind a b : String) (h : taggedDiag kind a) :
    taggedDiag kind (a ++ b) := by
  unfold taggedDiag at h ⊢
  rw [String.data_append]
  exact h.trans (List.prefix_append _ _)

theorem validate_schema_ctx (senv : SchemaEnv) (data : Val) :
    ∀ e ∈ validate_schema senv data, ctxDiag "Schema" e := by
  intro e he
  simp only [validate_schema, List.mem_map] at he
  obtain ⟨er, _, rfl⟩ := he
  exact ⟨_, er.2, rfl⟩

theorem uniqScope_mem (entries : List Val) (fmt : Val → String) (l : List String)
    (h : uniqScope entries fmt = .ok l) : ∀ e ∈ l, ∃ v, e = fmt v := by
  simp only [uniqScope] at h
  cases h1 : getTruthyNames entries with
  | error e1 => simp only [h1] at h; exact absurd h (by simp)
  | ok ns =>
    simp only [h1] at h
    cases h2 : find_duplicates ns with
    | error e2 => simp only [h2] at h; exact absurd h (by simp)
    | ok dups =>
      simp only [h2] at h
      cases h
      intro e he
      obtain ⟨v, _, rfl⟩ := List.mem_map.mp he
      exact ⟨v, rfl⟩

theorem uniqFields_tagged : ∀ (datasets : List Val) (l : List String),
    uniqFields datasets = .ok l → ∀ e ∈ l, taggedDiag "Unique" e
  | [], l, h => by
    simp only [uniqFields] at h
    cases h
    intro e he
    exact absurd he (by simp)
  | dset :: rest, l, h => by
    simp only [uniqFields] at h
    cases h1 : pyGetD dset "name" (.vstr "<unnamed>") with
    | error e1 => simp only [h1] at h; exact absurd h (by simp)
    | ok dnameV =>
      simp only [h1] at h
      cases h2 : pyGetD dset "fields" (.vlist []) with
      | error e2 => simp only [h2] at h; exact absurd h (by simp)
      | ok fieldsV =>
        simp only [h2] at h
        cases h3 : pyIter fieldsV with
        | error e3 => simp only [h3] at h; exact absurd h (by simp)
        | ok fields =>
          simp only [h3] at h
          cases h4 : uniqScope fields (fun dup =>
              "[Unique] Duplicate field name '" ++ pyStr dup ++ "' in dataset '"
                ++ pyStr dnameV ++ "'") with
          | error e4 => simp only [h4] at h; exact absurd h (by simp)
          | ok errs =>
            simp only [h4] at h
            cases h5 : uniqFields rest with
            | error e5 => simp only [h5] at h; exact absurd h (by simp)
            | ok more =>
              simp only [h5] at h
              cases h
              intro e he
              rcases List.mem_append.mp he with he | he
              · obtain ⟨v, rfl⟩ := uniqScope_mem _ _ _ h4 e he
                exact taggedDiag_extend _ _ _ (taggedDiag_extend _ _ _
                  (taggedDiag_extend _ _ _ (taggedDiag_extend _ _ _ (by unfold taggedDiag; decide))))
              · exact uniqFields_tagged rest more h5 e he

theorem uniqModel_tagged (model : Val) (l : List String) (h : uniqModel model = .ok l) :
    ∀ e ∈ l, taggedDiag "Unique" e := by
  simp only [uniqModel] at h
  cases h1 : pyGetD model "name" (.vstr "<unnamed>") with
  | error e1 => simp only [h1] at h; exact absurd h (by simp)
  | ok mnameV =>
    simp only [h1] at h
    cases h2 : pyGetD model "datasets" (.vlist []) with
    | error e2 => simp only [h2] at h; exact absurd h (by simp)
    | ok datasetsV =>
      simp only [h2] at h
      cases h3 : pyIter datasetsV with
      | error e3 => simp only [h3] at h; exact absurd h (by simp)
      | ok datasets =>
        simp only [h3] at h
        cases h4 : uniqScope datasets (fun dup =>
            "[Unique] Duplicate dataset name '" ++ pyStr dup ++ "' in model '"
              ++ pyStr mnameV ++ "'") with
        | error e4 => simp only [h4] at h; exact absurd h (by simp)
        | ok e1s =>
          simp only [h4] at h
          cases h7 : uniqFields datasets with
              | error e7 => simp only [h7] at h; exact absurd h (by simp)
              | ok e2s =>
                simp only [h7] at h
                cases h8 : pyGetD model "metrics" (.vlist []) with
                | error e8 => simp only [h8] at h; exact absurd h (by simp)
                | ok metricsV =>
                  simp only [h8] at h
                  cases h9 : pyIter metricsV with
                  | error e9 => simp only [h9] at h; exact absurd h (by simp)
                  | ok metrics =>
                    simp only [h9] at h
                    cases h10 : uniqScope metrics (fun dup =>
                        "[Unique] Duplicate metric name '" ++ pyStr dup ++ "' in model '"
                          ++ pyStr mnameV ++ "'") with
                    | error e10 => simp only [h10] at h; exact absurd h (by simp)
                    | ok e3s =>
                      simp only [h10] at h
                      cases h11 : pyGetD model "relationships" (.vlist []) with
                      | error e11 => simp only [h11] at h; exact absurd h (by simp)
                      | ok relsV =>
                        simp only [h11] at h
                        cases h12 : pyIter relsV with
                        | error e12 => simp only [h12] at h; exact absurd h (by simp)
                        | ok rels =>
                          simp only [h12] at h
                          cases h13 : uniqScope rels (fun dup =>
                              "[Unique] Duplicate relationship name '" ++ pyStr dup
                                ++ "' in model '" ++ pyStr mnameV ++ "'") with
                          | error e13 => simp only [h13] at h; exact absurd h (by simp)
                          | ok e4s =>
                            simp only [h13] at h
                            cases h
                            intro e he
                            rcases List.mem_append.mp he with he | he
                            rotate_left
                            · obtain ⟨v, rfl⟩ := uniqScope_mem _ _ _ h13 e he
                              exact taggedDiag_extend _ _ _ (taggedDiag_extend _ _ _
                                (taggedDiag_extend _ _ _ (taggedDiag_extend _ _ _ (by unfold taggedDiag; decide))))
                            rcases List.mem_append.mp he with he | he
                            rotate_left
                            · obtain ⟨v, rfl⟩ := uniqScope_mem _ _ _ h10 e he
                              exact taggedDiag_extend _ _ _ (taggedDiag_extend _ _ _
                                (taggedDiag_extend _ _ _ (taggedDiag_extend _ _ _ (by unfold taggedDiag; decide))))
                            rcases List.mem_append.mp he with he | he
                            · obtain ⟨v, rfl⟩ := uniqScope_mem _ _ _ h4 e he
                              exact taggedDiag_extend _ _ _ (taggedDiag_extend _ _ _
                                (taggedDiag_extend _ _ _ (taggedDiag_extend _ _ _ (by unfold taggedDiag; decide))))
                            · exact uniqFields_tagged _ _ h7 e he

theorem uniqModels_tagged : ∀ (models : List Val) (l : List String),
    uniqModels models = .ok l → ∀ e ∈ l, taggedDiag "Unique" e
  | [], l, h => by
    simp only [uniqModels] at h
    cases h
    intro e he
    exact absurd he (by simp)
  | model :: rest, l, h => by
    simp only [uniqModels] at h
    cases h1 : uniqModel model with
    | error e1 => simp only [h1] at h; exact absurd h (by simp)
    | ok errs =>
      simp only [h1] at h
      cases h2 : uniqModels rest with
      | error e2 => simp only [h2] at h; exact absurd h (by simp)
      | ok more =>
        simp only [h2] at h
        cases h
        intro e he
        rcases List.mem_append.mp he with he | he
        · exact uniqModel_tagged _ _ h1 e he
        · exact uniqModels_tagged rest more h2 e he

theorem validate_unique_names_tagged (data : Val) (l : List String)
    (h : validate_unique_names data = .ok l) : ∀ e ∈ l, taggedDiag "Unique" e := by
  simp only [validate_unique_names] at h
  cases h1 : pyGetD data "semantic_model" (.vlist []) with
  | error e1 => simp only [h1] at h; exact absurd h (by simp)
  | ok smV =>
    simp only [h1] at h
    cases h2 : pyIter smV with
    | error e2 => simp only [h2] at h; exact absurd h (by simp)
    | ok models =>
      simp only [h2] at h
      exact uniqModels_tagged models l h

theorem refMsg_tagged (relNameV ds : Val) : taggedDiag "Reference" (refMsg relNameV ds) := by
  unfold refMsg
  exact taggedDiag_extend _ _ _ (taggedDiag_extend _ _ _
    (taggedDiag_extend _ _ _ (taggedDiag_extend _ _ _ (by unfold taggedDiag; decide))))

theorem refEndpoint_tagged (relNameV endp : Val) (dnames : List Val) (l : List String)
    (h : refEndpoint relNameV endp dnames = .ok l) : ∀ e ∈ l, taggedDiag "Reference" e := by
  simp only [refEndpoint] at h
  by_cases ht : isTruthy endp = true
  · rw [if_pos ht] at h
    cases h1 : valSetMem endp dnames with
    | error e1 => simp only [h1] at h; exact absurd h (by simp)
    | ok b =>
      simp only [h1] at h
      cases h
      intro e he
      cases b
      · simp only [Bool.false_eq_true, if_false] at he
        rcases List.mem_singleton.mp he with rfl
        exact refMsg_tagged relNameV endp
      · simp at he
  · rw [if_neg ht] at h
    cases h
    intro e he
    exact absurd he (by simp)

theorem refRels_tagged (dnames : List Val) : ∀ (rels : List Val) (l : List String),
    refRels dnames rels = .ok l → ∀ e ∈ l, taggedDiag "Reference" e
  | [], l, h => by
    simp only [refRels] at h
    cases h
    intro e he
    exact absurd he (by simp)
  | rel :: rest, l, h => by
    simp only [refRels] at h
    cases h1 : pyGetD rel "name" (.vstr "<unnamed>") with
    | error e1 => simp only [h1] at h; exact absurd h (by simp)
    | ok relNameV =>
      simp only [h1] at h
      cases h2 : pyGet rel "from" with
      | error e2 => simp only [h2] at h; exact absurd h (by simp)
      | ok fromDs =>
        simp only [h2] at h
        cases h3 : pyGet rel "to" with
        | error e3 => simp only [h3] at h; exact absurd h (by simp)
        | ok toDs =>
          simp only [h3] at h
          cases h4 : refEndpoint relNameV fromDs dnames with
          | error e4 => simp only [h4] at h; exact absurd h (by simp)
          | ok e1s =>
            simp only [h4] at h
            cases h5 : refEndpoint relNameV toDs dnames with
            | error e5 => simp only [h5] at h; exact absurd h (by simp)
            | ok e2s =>
              simp only [h5] at h
              cases h6 : refRels dnames rest with
              | error e6 => simp only [h6] at h; exact absurd h (by simp)
              | ok more =>
                simp only [h6] at h
                cases h
                intro e he
                rcases List.mem_append.mp he with he | he
                rotate_left
                · exact refRels_tagged dnames rest more h6 e he
                rcases List.mem_append.mp he with he | he
                · exact refEndpoint_tagged _ _ _ _ h4 e he
                · exact refEndpoint_tagged _ _ _ _ h5 e he

theorem refModel_tagged (model : Val) (l : List String) (h : refModel model = .ok l) :
    ∀ e ∈ l, taggedDiag "Reference" e := by
  simp only [refModel] at h
  cases h1 : pyGetD model "name" (.vstr "<unnamed>") with
  | error e1 => simp only [h1] at h; exact absurd h (by simp)
  | ok mnameV =>
    simp only [h1] at h
    cases h2 : pyGetD model "datasets" (.vlist []) with
    | error e2 => simp only [h2] at h; exact absurd h (by simp)
    | ok datasetsV =>
      simp only [h2] at h
      cases h3 : pyIter datasetsV with
      | error e3 => simp only [h3] at h; exact absurd h (by simp)
      | ok datasets =>
        simp only [h3] at h
        cases h4 : buildNameSet datasets with
        | error e4 => simp only [h4] at h; exact absurd h (by simp)
        | ok dnames =>
          simp only [h4] at h
          cases h5 : pyGetD model "relationships" (.vlist []) with
          | error e5 => simp only [h5] at h; exact absurd h (by simp)
          | ok relsV =>
            simp only [h5] at h
            cases h6 : pyIter relsV with
            | error e6 => simp only [h6] at h; exact absurd h (by simp)
            | ok rels =>
              simp only [h6] at h
              exact refRels_tagged dnames rels l h

theorem refModels_tagged : ∀ (models : List Val) (l : List String),
    refModels models = .ok l → ∀ e ∈ l, taggedDiag "Reference" e
  | [], l, h => by
    simp only [refModels] at h
    cases h
    intro e he
    exact absurd he (by simp)
  | model :: rest, l, h => by
    simp only [refModels] at h
    cases h1 : refModel model with
    | error e1 => simp only [h1] at h; exact absurd h (by simp)
    | ok errs =>
      simp only [h1] at h
      cases h2 : refModels rest with
      | error e2 => simp only [h2] at h; exact absurd h (by simp)
      | ok more =>
        simp only [h2] at h
        cases h
        intro e he
        rcases List.mem_append.mp he with he | he
        · exact refModel_tagged _ _ h1 e he
        · exact refModels_tagged rest more h2 e he

theorem validate_references_tagged (data : Val) (l : List String)
    (h : validate_references data = .ok l) : ∀ e ∈ l, taggedDiag "Reference" e := by
  simp only [validate_references] at h
  cases h1 : pyGetD data "semantic_model" (.vlist []) with
  | error e1 => simp only [h1] at h; exact absurd h (by simp)
  | ok smV =>
    simp only [h1] at h
    cases h2 : pyIter smV with
    | error e2 => simp only [h2] at h; exact absurd h (by simp)
    | ok models =>
      simp only [h2] at h
      exact refModels_tagged models l h

theorem validate_sql_expression_ctx (env : SqlEnv) (expr dialect : Val) (context : String)
    (d : String) (h : validate_sql_expression env expr dialect context = .ok (some d)) :
    ctxDiag "SQL" d := by
  simp only [validate_sql_expression] at h
  cases hav : env.available
  · rw [hav] at h
    simp at h
  · rw [hav] at h
    simp only [Bool.not_true, Bool.false_eq_true, if_false] at h
    cases h1 : strSetMem dialect SKIP_SQL_VALIDATION with
    | error e1 => simp only [h1] at h; exact absurd h (by simp)
    | ok skip =>
      simp only [h1] at h
      cases skip
      · simp only [Bool.false_eq_true, if_false] at h
        cases h2 : dialectMapGet dialect with
        | error e2 => simp only [h2] at h; exact absurd h (by simp)
        | ok dlo =>
          simp only [h2] at h
          cases h3 : env.parse expr dlo with
          | ok u => simp only [h3] at h; simp at h
          | error e1 =>
            simp only [h3] at h
            cases h4 : env.parse (.vstr ("SELECT " ++ pyStr expr)) dlo with
            | ok u => simp only [h4] at h; simp at h
            | error e2 =>
              simp only [h4] at h
              cases h
              exact ⟨context, firstLine e2, rfl⟩
      · simp at h

theorem sqlEntries_ctx (env : SqlEnv) (ctxPre : String) : ∀ (des : List Val) (l : List String),
    sqlEntries env ctxPre des = .ok l → ∀ e ∈ l, ctxDiag "SQL" e
  | [], l, h => by
    simp only [sqlEntries] at h
    cases h
    intro e he
    exact absurd he (by simp)
  | de :: rest, l, h => by
    simp only [sqlEntries] at h
    cases h1 : pyGetD de "dialect" (.vstr "ANSI_SQL") with
    | error e1 => simp only [h1] at h; exact absurd h (by simp)
    | ok dialect =>
      simp only [h1] at h
      cases h2 : pyGetD de "expression" (.vstr "") with
      | error e2 => simp only [h2] at h; exact absurd h (by simp)
      | ok expr =>
        simp only [h2] at h
        cases h3 : (if isTruthy expr then
            validate_sql_expression env expr dialect
              (ctxPre ++ " (" ++ pyStr dialect ++ ")")
          else .ok none) with
        | error e3 => simp only [h3] at h; exact absurd h (by simp)
        | ok res =>
          simp only [h3] at h
          cases h4 : sqlEntries env ctxPre rest with
          | error e4 => simp only [h4] at h; exact absurd h (by simp)
          | ok more =>
            simp only [h4] at h
            cases h
            intro e he
            rcases List.mem_append.mp he with he | he
            · cases res with
              | none => exact absurd he (by simp)
              | some d =>
                rcases List.mem_singleton.mp (by simpa using he) with rfl
                by_cases ht : isTruthy expr = true
                · rw [if_pos ht] at h3
                  exact validate_sql_expression_ctx env expr dialect _ _ h3
                · rw [if_neg ht] at h3
                  exact absurd h3 (by simp)
            · exact sqlEntries_ctx env ctxPre rest more h4 e he

theorem sqlFields_ctx (env : SqlEnv) (dname : String) : ∀ (fields : List Val) (l : List String),
    sqlFields env dname fields = .ok l → ∀ e ∈ l, ctxDiag "SQL" e
  | [], l, h => by
    simp only [sqlFields] at h
    cases h
    intro e he
    exact absurd he (by simp)
  | f :: rest, l, h => by
    simp only [sqlFields] at h
    cases h1 : pyGetD f "name" (.vstr "<unnamed>") with
    | error e1 => simp only [h1] at h; exact absurd h (by simp)
    | ok fnameV =>
      simp only [h1] at h
      cases h2 : pyGetD f "expression" (.vdict []) with
      | error e2 => simp only [h2] at h; exact absurd h (by simp)
      | ok exprV =>
        simp only [h2] at h
        cases h3 : pyGetD exprV "dialects" (.vlist []) with
        | error e3 => simp only [h3] at h; exact absurd h (by simp)
        | ok dialectsV =>
          simp only [h3] at h
          cases h4 : pyIter dialectsV with
          | error e4 => simp only [h4] at h; exact absurd h (by simp)
          | ok des =>
            simp only [h4] at h
            cases h5 : sqlEntries env
                ("Field '" ++ dname ++ "." ++ pyStr fnameV ++ "'") des with
            | error e5 => simp only [h5] at h; exact absurd h (by simp)
            | ok errs =>
              simp only [h5] at h
              cases h6 : sqlFields env dname rest with
              | error e6 => simp only [h6] at h; exact absurd h (by simp)
              | ok more =>
                simp only [h6] at h
                cases h
                intro e he
                rcases List.mem_append.mp he with he | he
                · exact sqlEntries_ctx env _ des errs h5 e he
                · exact sqlFields_ctx env dname rest more h6 e he

theorem sqlDatasets_ctx (env : SqlEnv) : ∀ (datasets : List Val) (l : List String),
    sqlDatasets env datasets = .ok l → ∀ e ∈ l, ctxDiag "SQL" e
  | [], l, h => by
    simp only [sqlDatasets] at h
    cases h
    intro e he
    exact absurd he (by simp)
  | dset :: rest, l, h => by
    simp only [sqlDatasets] at h
    cases h1 : pyGetD dset "name" (.vstr "<unnamed>") with
    | error e1 => simp only [h1] at h; exact absurd h (by simp)
    | ok dnameV =>
      simp only [h1] at h
      cases h2 : pyGetD dset "fields" (.vlist []) with
      | error e2 => simp only [h2] at h; exact absurd h (by simp)
      | ok fieldsV =>
        simp only [h2] at h
        cases h3 : pyIter fieldsV with
        | error e3 => simp only [h3] at h; exact absurd h (by simp)
        | ok fields =>
          simp only [h3] at h
          cases h4 : sqlFields env (pyStr dnameV) fields with
          | error e4 => simp only [h4] at h; exact absurd h (by simp)
          | ok errs =>
            simp only [h4] at h
            cases h5 : sqlDatasets env rest with
            | error e5 => simp only [h5] at h; exact absurd h (by simp)
            | ok more =>
              simp only [h5] at h
              cases h
              intro e he
              rcases List.mem_append.mp he with he | he
              · exact sqlFields_ctx env _ fields errs h4 e he
              · exact sqlDatasets_ctx env rest more h5 e he

theorem sqlMetrics_ctx (env : SqlEnv) : ∀ (metrics : List Val) (l : List String),
    sqlMetrics env metrics = .ok l → ∀ e ∈ l, ctxDiag "SQL" e
  | [], l, h => by
    simp only [sqlMetrics] at h
    cases h
    intro e he
    exact absurd he (by simp)
  | metric :: rest, l, h => by
    simp only [sqlMetrics] at h
    cases h1 : pyGetD metric "name" (.vstr "<unnamed>") with
    | error e1 => simp only [h1] at h; exact absurd h (by simp)
    | ok mnameV =>
      simp only [h1] at h
      cases h2 : pyGetD metric "expression" (.vdict []) with
      | error e2 => simp only [h2] at h; exact absurd h (by simp)
      | ok exprV =>
        simp only [h2] at h
        cases h3 : pyGetD exprV "dialects" (.vlist []) with
        | error e3 => simp only [h3] at h; exact absurd h (by simp)
        | ok dialectsV =>
          simp only [h3] at h
          cases h4 : pyIter dialectsV with
          | error e4 => simp only [h4] at h; exact absurd h (by simp)
          | ok des =>
            simp only [h4] at h
            cases h5 : sqlEntries env ("Metric '" ++ pyStr mnameV ++ "'") des with
            | error e5 => simp only [h5] at h; exact absurd h (by simp)
            | ok errs =>
              simp only [h5] at h
              cases h6 : sqlMetrics env rest with
              | error e6 => simp only [h6] at h; exact absurd h (by simp)
              | ok more =>
                simp only [h6] at h
                cases h
                intro e he
                rcases List.mem_append.mp he with he | he
                · exact sqlEntries_ctx env _ des errs h5 e he
                · exact sqlMetrics_ctx env rest more h6 e he

theorem sqlModel_ctx (env : SqlEnv) (model : Val) (l : List String)
    (h : sqlModel env model = .ok l) : ∀ e ∈ l, ctxDiag "SQL" e := by
  simp only [sqlModel] at h
  cases h1 : pyGetD model "name" (.vstr "<unnamed>") with
  | error e1 => simp only [h1] at h; exact absurd h (by simp)
  | ok mnameV =>
    simp only [h1] at h
    cases h2 : pyGetD model "datasets" (.vlist []) with
    | error e2 => simp only [h2] at h; exact absurd h (by simp)
    | ok datasetsV =>
      simp only [h2] at h
      cases h3 : pyIter datasetsV with
      | error e3 => simp only [h3] at h; exact absurd h (by simp)
      | ok datasets =>
        simp only [h3] at h
        cases h4 : sqlDatasets env datasets with
        | error e4 => simp only [h4] at h; exact absurd h (by simp)
        | ok e1s =>
          simp only [h4] at h
          cases h5 : pyGetD model "metrics" (.vlist []) with
          | error e5 => simp only [h5] at h; exact absurd h (by simp)
          | ok metricsV =>
            simp only [h5] at h
            cases h6 : pyIter metricsV with
            | error e6 => simp only [h6] at h; exact absurd h (by simp)
            | ok metrics =>
              simp only [h6] at h
              cases h7 : sqlMetrics env metrics with
              | error e7 => simp only [h7] at h; exact absurd h (by simp)
              | ok e2s =>
                simp only [h7] at h
                cases h
                intro e he
                rcases List.mem_append.mp he with he | he
                · exact sqlDatasets_ctx env datasets e1s h4 e he
                · exact sqlMetrics_ctx env metrics e2s h7 e he

theorem sqlModels_ctx (env : SqlEnv) : ∀ (models : List Val) (l : List String),
    sqlModels env models = .ok l → ∀ e ∈ l, ctxDiag "SQL" e
  | [], l, h => by
    simp only [sqlModels] at h
    cases h
    intro e he
    exact absurd he (by simp)
  | model :: rest, l, h => by
    simp only [sqlModels] at h
    cases h1 : sqlModel env model with
    | error e1 => simp only [h1] at h; exact absurd h (by simp)
    | ok errs =>
      simp only [h1] at h
      cases h2 : sqlModels env rest with
      | error e2 => simp only [h2] at h; exact absurd h (by simp)
      | ok more =>
        simp only [h2] at h
        cases h
        intro e he
        rcases List.mem_append.mp he with he | he
        · exact sqlModel_ctx env model errs h1 e he
        · exact sqlModels_ctx env rest more h2 e he

theorem validate_sql_ctx (env : SqlEnv) (data : Val) (l : List String)
    (h : validate_sql env data = .ok l) : ∀ e ∈ l, ctxDiag "SQL" e := by
  simp only [validate_sql] at h
  cases hav : env.available
  · rw [hav] at h
    simp only [Bool.not_false, if_true] at h
    cases h
    intro e he
    rcases List.mem_singleton.mp he with rfl
    exact ⟨"Warning", "sqlglot not installed, skipping SQL validation. Install with: pip install sqlglot", rfl⟩
  · rw [hav] at h
    simp only [Bool.not_true, Bool.false_eq_true, if_false] at h
    cases h1 : pyGetD data "semantic_model" (.vlist []) with
    | error e1 => simp only [h1] at h; exact absurd h (by simp)
    | ok smV =>
      simp only [h1] at h
      cases h2 : pyIter smV with
      | error e2 => simp only [h2] at h; exact absurd h (by simp)
      | ok models =>
        simp only [h2] at h
        exact sqlModels_ctx env models l h

/-- C8 (amended): every diagnostic of every pass begins with its kind tag
`[Kind] `, Kind ∈ `Schema, Unique, Reference, SQL`; Schema and SQL
diagnostics moreover have the full `[Kind] context: message` shape, while
Unique and Reference diagnostics put their whole message after the tag
with no colon-separated context. -/
theorem diag_format_claim (senv : SchemaEnv) (env : SqlEnv) (data : Val) (e : String) :
    (e ∈ validate_schema senv data → ctxDiag "Schema" e ∧ taggedDiag "Schema" e) ∧
    (∀ l, validate_unique_names data = .ok l → e ∈ l → taggedDiag "Unique" e) ∧
    (∀ l, validate_references data = .ok l → e ∈ l → taggedDiag "Reference" e) ∧
    (∀ l, validate_sql env data = .ok l → e ∈ l → ctxDiag "SQL" e ∧ taggedDiag "SQL" e) := by
  have htag : ∀ (k c m : String), taggedDiag k ("[" ++ k ++ "] " ++ c ++ ": " ++ m) := by
    intro k c m
    refine taggedDiag_extend _ _ _ (taggedDiag_extend _ _ _ ?_)
    unfold taggedDiag
    rw [String.data_append]
    exact List.prefix_append _ _
  refine ⟨?_, ?_, ?_, ?_⟩
  · intro he
    obtain ⟨c, m, rfl⟩ := validate_schema_ctx senv data e he
    exact ⟨⟨c, m, rfl⟩, htag "Schema" c m⟩
  · intro l hl he
    exact validate_unique_names_tagged data l hl e he
  · intro l hl he
    exact validate_references_tagged data l hl e he
  · intro l hl he
    obtain ⟨c, m, rfl⟩ := validate_sql_ctx env data l hl e he
    exact ⟨⟨c, m, rfl⟩, htag "SQL" c m⟩

/-- Counterexample to C8 as stated: the uniqueness pass emits
`[Unique] Duplicate dataset name 'a' in model 'm'`, which contains no
colon at all and hence is not of the form `[Kind] context: message`. -/
theorem diag_format_counterexample :
    validate_unique_names (mkDatasetsDoc "m" [.vstr "a", .vstr "a"]) =
      .ok ["[Unique] Duplicate dataset name 'a' in model 'm'"] ∧
    ¬ diagFormat "[Unique] Duplicate dataset name 'a' in model 'm'" := by
  refine ⟨rfl, ?_⟩
  rintro ⟨k, hk, c, m, he⟩
  have hmem : (':' : Char) ∈ ("[" ++ k ++ "] " ++ c ++ ": " ++ m).data := by
    rw [String.data_append, String.data_append]
    refine List.mem_append.mpr (Or.inl ?_)
    refine List.mem_append.mpr (Or.inr ?_)
    decide
  rw [← he] at hmem
  exact absurd hmem (by decide)

/-- Witness for C8 on concrete runs of the uniqueness and expression
passes. -/
theorem diag_format_claim_witness :
    taggedDiag "Unique" "[Unique] Duplicate dataset name 'a' in model 'm'" ∧
    (ctxDiag "SQL" sqlglotWarning ∧ taggedDiag "SQL" sqlglotWarning) :=
  ⟨(diag_format_claim ⟨fun _ => []⟩ ⟨false, fun _ _ => .ok ()⟩
      (mkDatasetsDoc "m" [.vstr "a", .vstr "a"])
      "[Unique] Duplicate dataset name 'a' in model 'm'").2.1
    ["[Unique] Duplicate dataset name 'a' in model 'm'"] rfl (by simp),
   (diag_format_claim ⟨fun _ => []⟩ ⟨false, fun _ _ => .ok ()⟩
      (mkDatasetsDoc "m" [.vstr "a", .vstr "a"]) sqlglotWarning).2.2.2
    [sqlglotWarning] rfl (by simp)⟩
